import Mathlib

/-!
Verification development for the EAG-V2 agent system.

This file gives a shallow embedding of the core components described in the
specification and settles the frozen claims against it:

* `Week-9/modules/heuristics_code.py` — the textual deny-list filter
  (`contains_unsafe_arguments`), the static tool-call counters, the AST-based
  `solve()` linter and `validate_solve_code`;
* `Week-9/modules/action.py` — the sandboxed executor `run_python_sandbox`
  and the tool-call quota of the `SandboxMCP` gateway handle;
* `Week-9/modules/historical_index.py` — the historical-memory relevance
  scorer and the bullet digest;
* `Week-10/agent/agent_loop2.py` and `Week-10/decision/decision.py` — the
  orchestrator loop (step/retry budgets, HITL escalation) and the
  step-proposal validator.

Python regular-expression searches are embedded as explicit backtracking
matchers over character lists; Python's dynamic execution of `solve()` is
embedded as an explicit behaviour parameter (what the compiled code would do:
how many gateway calls it attempts and how it finishes), while everything the
repository's own code decides (policy gates, quota accounting, result
normalisation, control flow) is translated directly.
-/

namespace EAG

/-! ## Character classes used by the embedded regex patterns -/

/-- Python `\s` (ASCII): space, tab, newline, carriage return, vertical tab,
form feed. -/
def isPySpace (c : Char) : Bool :=
  c = ' ' ∨ c = '\t' ∨ c = '\n' ∨ c = '\r' ∨ c = Char.ofNat 11 ∨ c = Char.ofNat 12

/-- Python `\w` (ASCII): letters, digits and underscore. -/
def isWordChar (c : Char) : Bool :=
  c.isAlphanum ∨ c = '_'

/-- A single quote or a double quote, as in the character class `['"]`. -/
def isQuoteChar (c : Char) : Bool :=
  c = Char.ofNat 39 ∨ c = '"'

/-- Python `str.lower()` (ASCII case folding, character by character). -/
def strLower (s : String) : String :=
  String.mk (s.toList.map Char.toLower)

/-- Python `str.split(sep)` for a one-character separator. -/
def splitOnChar (sep : Char) : List Char → List (List Char)
  | [] => [[]]
  | c :: rest =>
    let r := splitOnChar sep rest
    if c = sep then [] :: r
    else
      match r with
      | h :: t => (c :: h) :: t
      | [] => [[c]]

/-- The lines of a string, as by Python `str.split('\n')`. -/
def splitLines (s : String) : List String :=
  (splitOnChar '\n' s.toList).map String.mk

/-- Python `str.strip()` (whitespace from both ends). -/
def pyStrip (s : String) : String :=
  String.mk (((s.toList.dropWhile isPySpace).reverse.dropWhile isPySpace).reverse)

/-- Python `'\n'.join(...)`. -/
def joinNL : List String → String
  | [] => ""
  | [b] => b
  | b :: rest => b ++ "\n" ++ joinNL rest

/-! ## A tiny regex fragment

The deny-list patterns of `heuristics_code.py` only use literal characters
and one-or-more repetitions of a character class (`/+`, `\s+`), so a pattern
is embedded as a list of tokens, each either one literal character or a
one-or-more repetition of a character class. -/

inductive PatTok where
  | ch (c : Char)
  | plus (f : Char → Bool)

/-- Backtracking matcher: does the token list match a prefix of `cs`? -/
def matchToks : List PatTok → List Char → Bool
  | [], _ => true
  | _ :: _, [] => false
  | .ch a :: ps, c :: cs => a = c && matchToks ps cs
  | .plus f :: ps, c :: cs => f c && (matchToks ps cs || matchToks (.plus f :: ps) cs)

/-- `re.search` semantics: the pattern matches at some position of `cs`. -/
def searchToks (ps : List PatTok) : List Char → Bool
  | [] => matchToks ps []
  | c :: cs => matchToks ps (c :: cs) || searchToks ps cs

/-- Literal characters of a string as pattern tokens. -/
def litToks (s : String) : List PatTok :=
  s.toList.map .ch

/-! ## HEURISTIC 3: the unsafe-pattern deny list (`UNSAFE_PATTERNS`) -/

/-- The eleven deny-list regexes of `heuristics_code.py`, in source order:
`\.\./+`, `<script`, `</script`, `delete\s+from`, `drop\s+table`,
`rm\s+-rf`, `eval\(`, `exec\(`, `__import__`, `system\(`, `popen\(`. -/
def UNSAFE_PATTERNS : List (List PatTok) :=
  [ litToks ".." ++ [.plus (fun c => c = '/')]
  , litToks "<script"
  , litToks "</script"
  , litToks "delete" ++ [.plus isPySpace] ++ litToks "from"
  , litToks "drop" ++ [.plus isPySpace] ++ litToks "table"
  , litToks "rm" ++ [.plus isPySpace] ++ litToks "-rf"
  , litToks "eval("
  , litToks "exec("
  , litToks "__import__"
  , litToks "system("
  , litToks "popen(" ]

/-- `contains_unsafe_arguments`: lower-case the code and search each deny-list
pattern. -/
def containsUnsafeArguments (code : String) : Bool :=
  let cs := (strLower code).toList
  UNSAFE_PATTERNS.any (fun p => searchToks p cs)

/-! ## HEURISTICS 5 and 7: static tool-call scanning

`count_distinct_tools` and `has_excessive_repeats` both scan the code text
with `re.findall(r'mcp\.call_tool\([\'"](\w+)[\'"]', ...)`: non-overlapping
left-to-right matches, capturing the tool name between the quotes. -/

/-- Try to match `mcp.call_tool(` followed by a quote, a non-empty run of
word characters (the captured name) and a quote, at the head of `cs`.
On success return the captured name and the remaining characters. -/
def tryToolCallAt (cs : List Char) : Option (String × List Char) :=
  if ("mcp.call_tool(".toList).isPrefixOf cs then
    match cs.drop 14 with
    | q :: cs2 =>
      if isQuoteChar q then
        let w := cs2.takeWhile isWordChar
        if w.isEmpty then none
        else
          match cs2.dropWhile isWordChar with
          | q2 :: cs3 => if isQuoteChar q2 then some (String.mk w, cs3) else none
          | [] => none
      else none
    | [] => none
  else none

/-- Non-overlapping left-to-right scan; `fuel` bounds the recursion and is
instantiated with the length of the text (each step consumes at least one
character, so this fuel is always sufficient). -/
def findToolCallsAux : Nat → List Char → List String
  | 0, _ => []
  | _ + 1, [] => []
  | fuel + 1, c :: cs =>
    match tryToolCallAt (c :: cs) with
    | some (name, rest) => name :: findToolCallsAux fuel rest
    | none => findToolCallsAux fuel cs

/-- All captured tool names of `mcp.call_tool('<name>'` occurrences. -/
def findToolCalls (code : String) : List String :=
  findToolCallsAux code.toList.length code.toList

/-- `count_distinct_tools`: size of the set of captured names. -/
def countDistinctTools (code : String) : Nat :=
  (findToolCalls code).dedup.length

/-- `exceeds_tool_diversity_limit` with its default `max_tools = 3`. -/
def exceedsToolDiversityLimit (code : String) : Bool :=
  countDistinctTools code > 3

/-- `has_excessive_repeats` with its default `max_repeats = 2`: some captured
name occurs more than twice. -/
def hasExcessiveRepeats (code : String) : Bool :=
  let names := findToolCalls code
  names.any (fun n => names.count n > 2)

/-! ## HEURISTIC 10: the AST-based `solve()` linter

`SolveFunctionLinter` is an `ast.NodeVisitor` with two pieces of instance
state: the accumulated `errors` list and the `in_solve` flag.  Only
`FunctionDef`, `Import`, `ImportFrom`, `ClassDef`, `Call` and `While` nodes
have handlers; every other node is traversed by `generic_visit` with the flag
unchanged.  The flag is instance state, so it threads through sibling
traversal: the embedding below passes it as explicit state. -/

inductive PyExpr where
  | name (id : String)
  | const
  | attr (obj : PyExpr) (field : String)
  | call (func : PyExpr) (args : List PyExpr)

inductive PyStmt where
  | functionDef (name : String) (body : List PyStmt)
  | asyncFunctionDef (name : String) (body : List PyStmt)
  | classDef (name : String) (body : List PyStmt)
  | importStmt (modules : List String)
  | importFrom (module : String) (names : List String)
  | whileStmt (test : PyExpr) (body : List PyStmt) (orelse : List PyStmt)
  | forStmt (iter : PyExpr) (body : List PyStmt)
  | ifStmt (test : PyExpr) (body : List PyStmt) (orelse : List PyStmt)
  | exprStmt (e : PyExpr)
  | assign (value : PyExpr)
  | returnStmt (value : Option PyExpr)
  | breakStmt
  | passStmt

/-- The deny-list of `visit_Call`. -/
def dangerousBuiltins : List String :=
  ["eval", "exec", "compile", "__import__", "open", "system"]

mutual

/-- `ast.walk` restricted to what `visit_While` needs: is there an `ast.Break`
node anywhere in the subtree of a statement? -/
def stmtHasBreak : PyStmt → Bool
  | .functionDef _ body => stmtsHaveBreak body
  | .asyncFunctionDef _ body => stmtsHaveBreak body
  | .classDef _ body => stmtsHaveBreak body
  | .whileStmt _ body orelse => stmtsHaveBreak body || stmtsHaveBreak orelse
  | .forStmt _ body => stmtsHaveBreak body
  | .ifStmt _ body orelse => stmtsHaveBreak body || stmtsHaveBreak orelse
  | .breakStmt => true
  | _ => false

/-- `stmtHasBreak` over a statement list. -/
def stmtsHaveBreak : List PyStmt → Bool
  | [] => false
  | s :: rest => stmtHasBreak s || stmtsHaveBreak rest

end

mutual

/-- `visit_Call` plus `generic_visit` over an expression: a call to a plain
name on the deny-list is an error when `in_solve` is set; arguments and the
callee are traversed.  Expressions never change the `in_solve` flag. -/
def lintExpr (flag : Bool) : PyExpr → List String
  | .name _ => []
  | .const => []
  | .attr obj _ => lintExpr flag obj
  | .call f args =>
    (match f with
     | .name id =>
       if flag && dangerousBuiltins.contains id then
         ["Dangerous function call not allowed: " ++ id]
       else []
     | _ => []) ++ lintExpr flag f ++ lintExprs flag args

def lintExprs (flag : Bool) : List PyExpr → List String
  | [] => []
  | e :: rest => lintExpr flag e ++ lintExprs flag rest

end

mutual

/-- One statement under the visitor.  Input: the current `in_solve` flag;
output: the flag after the visit (it is instance state in the Python class)
and the errors appended during the visit.

* `visit_FunctionDef` named `solve`: sets the flag, traverses the body, then
  clears the flag (to `False`, not to its previous value — faithful to the
  source).  Any other name is an error when the flag is set, and its body is
  not traversed either way.
* `visit_Import` / `visit_ImportFrom` / `visit_ClassDef`: error when the flag
  is set; children are not traversed (no `generic_visit` in the handlers).
* `visit_While`: error when the flag is set and no `Break` occurs in the
  whole `ast.walk` of the node; then `generic_visit`.
* `AsyncFunctionDef` has no handler, so `generic_visit` traverses its body
  with the flag unchanged.
* All other statements are traversed by `generic_visit`. -/
def lintStmt (flag : Bool) : PyStmt → Bool × List String
  | .functionDef name body =>
    if name = "solve" then
      (false, (lintStmts true body).2)
    else if flag then
      (flag, ["Nested function definition not allowed: " ++ name])
    else (flag, [])
  | .asyncFunctionDef _ body => lintStmts flag body
  | .classDef name _ =>
    (flag, if flag then ["Class definitions not allowed: " ++ name] else [])
  | .importStmt _ =>
    (flag, if flag then ["Import statements not allowed in solve()"] else [])
  | .importFrom _ _ =>
    (flag, if flag then ["Import statements not allowed in solve()"] else [])
  | .whileStmt test body orelse =>
    let selfErr :=
      if flag && !(stmtsHaveBreak body || stmtsHaveBreak orelse) then
        ["While loop without break statement (potential infinite loop)"]
      else []
    let r1 := lintStmts flag body
    let r2 := lintStmts r1.1 orelse
    (r2.1, selfErr ++ lintExpr flag test ++ r1.2 ++ r2.2)
  | .forStmt iter body =>
    let r1 := lintStmts flag body
    (r1.1, lintExpr flag iter ++ r1.2)
  | .ifStmt test body orelse =>
    let r1 := lintStmts flag body
    let r2 := lintStmts r1.1 orelse
    (r2.1, lintExpr flag test ++ r1.2 ++ r2.2)
  | .exprStmt e => (flag, lintExpr flag e)
  | .assign value => (flag, lintExpr flag value)
  | .returnStmt value =>
    (flag, match value with | some e => lintExpr flag e | none => [])
  | .breakStmt => (flag, [])
  | .passStmt => (flag, [])

/-- Visit a statement list in order, threading the flag. -/
def lintStmts (flag : Bool) : List PyStmt → Bool × List String
  | [] => (flag, [])
  | s :: rest =>
    let r1 := lintStmt flag s
    let r2 := lintStmts r1.1 rest
    (r2.1, r1.2 ++ r2.2)

end

/-- Visiting a parsed module: the visitor starts with `in_solve = False`. -/
def lintModule (m : List PyStmt) : List String :=
  (lintStmts false m).2

/-- A piece of proposed Python code: its raw text together with the result of
`ast.parse` on it (`Except.error` carries the syntax-error message; the
parser itself is Python's and is not re-implemented, so the parse is part of
the input). -/
structure PyCode where
  text : String
  ast : Except String (List PyStmt)

/-- `lint_solve_function`: parse, visit, return `(is_valid, error_list)`;
a syntax error becomes a single-element error list. -/
def lintSolveFunction (code : PyCode) : Bool × List String :=
  match code.ast with
  | .error e => (false, ["Syntax error: " ++ e])
  | .ok m =>
    let errs := lintModule m
    if errs.isEmpty then (true, []) else (false, errs)

/-- `validate_solve_code`: heuristics H3, H5, H7 and H10 in source order;
valid iff no heuristic produced an error. -/
def validateSolveCode (code : PyCode) : Bool × List String :=
  let errors :=
    (if containsUnsafeArguments code.text then ["Code contains unsafe patterns"] else [])
    ++ (if exceedsToolDiversityLimit code.text then ["Code uses more than 3 distinct tools"] else [])
    ++ (if hasExcessiveRepeats code.text then ["Code calls the same tool more than 2 times"] else [])
    ++ (let lr := lintSolveFunction code
        if lr.1 then [] else lr.2)
  (errors.isEmpty, errors)

/-! ## HEURISTIC 6: `clean_output_structure` -/

/-- First substitution of `clean_output_structure`:
`re.sub(r'```[\w]*\n?', '', result)` removes every occurrence of three
backticks followed by a run of word characters and at most one newline.  (The
second substitution `re.sub(r'```', '', ...)` is then vacuous, since every
remaining triple backtick would already have matched the first pattern.)
`fuel` is instantiated with the text length; every step consumes at least one
character. -/
def stripFencesAux : Nat → List Char → List Char
  | 0, cs => cs
  | _ + 1, [] => []
  | fuel + 1, c :: cs =>
    if c = Char.ofNat 96 ∧ cs.take 2 = [Char.ofNat 96, Char.ofNat 96] then
      let r1 := (cs.drop 2).dropWhile isWordChar
      let r2 := match r1 with
        | '\n' :: t => t
        | _ => r1
      stripFencesAux fuel r2
    else c :: stripFencesAux fuel cs

def stripFences (s : String) : String :=
  String.mk (stripFencesAux s.toList.length s.toList)

/-- A line matching `^import\s+.*$`. -/
def isImportLine (line : String) : Bool :=
  match line.toList with
  | 'i' :: 'm' :: 'p' :: 'o' :: 'r' :: 't' :: c :: _ => isPySpace c
  | _ => false

/-- A line matching `^from\s+.*import.*$`. -/
def isFromImportLine (line : String) : Bool :=
  match line.toList with
  | 'f' :: 'r' :: 'o' :: 'm' :: c :: rest =>
    isPySpace c && searchToks (litToks "import") rest
  | _ => false

/-- A line matching `re.match(r'^\s*def\s+(?!solve)', line)`.  After `def` at
least one whitespace character must follow; the negative lookahead is checked
at the position reached after consuming one or more whitespace characters,
with backtracking: if two or more whitespace characters follow `def`, the
engine can stop after the first one, where the next character is whitespace
and therefore not the literal `solve`, so the line matches even when the
function is named `solve`. -/
def isSkipDefLine (line : String) : Bool :=
  let l := line.toList.dropWhile isPySpace
  if l.take 3 = ['d', 'e', 'f'] then
    let r := l.drop 3
    let w := r.takeWhile isPySpace
    let rest := r.dropWhile isPySpace
    if w.length = 0 then false
    else if w.length ≥ 2 then true
    else !(("solve".toList).isPrefixOf rest)
  else false

/-- Does the line start with a space or a tab (`line.startswith((' ', '\t'))`
shape used by the skip logic)? -/
def startsIndented (line : String) : Bool :=
  match line.toList with
  | c :: _ => c = ' ' ∨ c = '\t'
  | [] => false

/-- The def-skipping pass: a line opening a non-`solve` `def` turns skipping
on; a subsequent unindented line turns it off (and is kept). -/
def cleanDefLines (skip : Bool) : List String → List String
  | [] => []
  | line :: rest =>
    let skip' :=
      if isSkipDefLine line then true
      else if skip ∧ ¬ startsIndented line then false
      else skip
    (if skip' then [] else [line]) ++ cleanDefLines skip' rest

/-- `clean_output_structure`: strip code fences, blank import lines, drop
non-`solve` function-definition blocks, rejoin and strip. -/
def cleanOutputStructure (result : String) : String :=
  let lines := splitLines (stripFences result)
  let lines := lines.map (fun l =>
    if isImportLine l ∨ isFromImportLine l then "" else l)
  let lines := cleanDefLines false lines
  pyStrip (String.intercalate "\n" lines)

/-! ## The sandboxed executor (`Week-9/modules/action.py`)

`run_python_sandbox` gates the code through `contains_unsafe_arguments` and
`validate_solve_code`, then `exec`s it in a fresh module scope and calls its
`solve()` under a timeout, with tool access only through the `SandboxMCP`
gateway handle.  What the dynamically executed code does is not decided by
the repository, so it enters the embedding as an explicit behaviour value:
whether the module-level `exec` raises, whether a `solve` function is
defined, how many gateway calls the plan attempts, and how it finishes. -/

def MAX_TOOL_CALLS_PER_PLAN : Nat := 10

/-- The mutable state of a `SandboxMCP` handle: the invocation counter, the
number of calls actually forwarded to the real dispatcher, the tool names
recorded, and whether the quota `RuntimeError` has been raised (aborting the
plan). -/
structure SandboxMCPState where
  call_count : Nat := 0
  forwarded : Nat := 0
  tools_called : List String := []
  errored : Bool := false

/-- One `SandboxMCP.call_tool` invocation: increment `call_count`; past the
quota raise (recording nothing, dispatching nothing); otherwise record the
tool name and forward to the real dispatcher. -/
def callToolStep (tool : String) (st : SandboxMCPState) : SandboxMCPState :=
  if st.errored then st
  else
    let cc := st.call_count + 1
    if cc > MAX_TOOL_CALLS_PER_PLAN then
      { st with call_count := cc, errored := true }
    else
      { st with call_count := cc, forwarded := st.forwarded + 1,
                tools_called := st.tools_called ++ [tool] }

/-- Run `n` successive `call_tool` invocations (the quota error aborts the
remaining ones). -/
def runCalls : Nat → SandboxMCPState → SandboxMCPState
  | 0, st => st
  | n + 1, st => runCalls n (callToolStep "tool" st)

/-- The value returned by `solve()`, as classified by the result-formatting
branch of `run_python_sandbox`: a dict with a `result` key (carried as the
display string of that entry), another dict (carried as its `json.dumps`),
a list (carried as the display strings of its elements), or anything else
(carried as its display string). -/
inductive PyValue where
  | dictWithResult (r : String)
  | dict (dumped : String)
  | listVal (elems : List String)
  | other (s : String)

/-- `str(result)` / `json.dumps` / `' '.join` formatting. -/
def formatResult : PyValue → String
  | .dictWithResult r => r
  | .dict dumped => dumped
  | .listVal elems => String.intercalate " " elems
  | .other s => s

/-- How the `solve()` coroutine finishes once its tool calls are done. -/
inductive SolveOutcome where
  | returns (v : PyValue)
  | raises (msg : String)
  | timesOut

/-- Behaviour of the `solve()` found in the sandbox module: it attempts
`calls` gateway invocations in sequence and, if none of them raised the quota
error, finishes with `outcome`. -/
structure SolveBehavior where
  calls : Nat
  outcome : SolveOutcome

/-- Behaviour of `exec`-ing the validated code in the sandbox module scope. -/
inductive ExecBehavior where
  | moduleRaises (msg : String)
  | noSolve
  | solveRuns (b : SolveBehavior)

/-- The observable outcome of `run_python_sandbox`: the returned string,
whether the code was compiled and executed at all, and how many tool calls
were forwarded to the real dispatcher. -/
structure SandboxOutcome where
  output : String
  executed : Bool
  forwarded : Nat

/-- `run_python_sandbox`: deny-list gate, validation gate, then execution;
every failure is caught and mapped to a `[sandbox error: ...]` string. -/
def runPythonSandbox (code : PyCode) (beh : ExecBehavior) : SandboxOutcome :=
  if containsUnsafeArguments code.text then
    { output := "[sandbox error: unsafe code patterns detected]",
      executed := false, forwarded := 0 }
  else
    let vr := validateSolveCode code
    if !vr.1 then
      { output := "[sandbox error: validation failed - "
          ++ String.intercalate "; " vr.2 ++ "]",
        executed := false, forwarded := 0 }
    else
      match beh with
      | .moduleRaises msg =>
        { output := "[sandbox error: " ++ msg ++ "]",
          executed := true, forwarded := 0 }
      | .noSolve =>
        { output := "[sandbox error: No solve() function found in plan.]",
          executed := true, forwarded := 0 }
      | .solveRuns b =>
        let st := runCalls b.calls {}
        if st.errored then
          { output := "[sandbox error: Exceeded max tool calls ("
              ++ toString MAX_TOOL_CALLS_PER_PLAN ++ ") in solve() plan.]",
            executed := true, forwarded := st.forwarded }
        else
          match b.outcome with
          | .returns v =>
            { output := cleanOutputStructure (formatResult v),
              executed := true, forwarded := st.forwarded }
          | .raises msg =>
            { output := "[sandbox error: " ++ msg ++ "]",
              executed := true, forwarded := st.forwarded }
          | .timesOut =>
            { output := "[sandbox error: execution timeout]",
              executed := true, forwarded := st.forwarded }

/-! ## The historical memory scorer (`Week-9/modules/historical_index.py`)

Term extraction and Jaccard similarity are exact (rationals instead of
Python floats); the recency factor uses `Real.exp` as the source uses
`math.exp`.  Timestamp parsing (`datetime.fromisoformat`) is a Python
library call, so a timestamp field carries its parse result as part of the
input. -/

/-- The stop-word set of `extract_query_terms`. -/
def stopWords : List String :=
  ["the", "a", "an", "and", "or", "but", "in", "on", "at", "to", "for",
   "of", "with", "by", "from", "as", "is", "was", "are", "were", "be",
   "been", "being", "have", "has", "had", "do", "does", "did", "will",
   "would", "should", "could", "may", "might", "must", "can", "this",
   "that", "these", "those", "i", "you", "he", "she", "it", "we", "they"]

/-- `re.findall(r'\b\w+\b', ...)`: the maximal runs of word characters.
`fuel` is instantiated with the text length (every step consumes at least
one character). -/
def wordRunsAux : Nat → List Char → List (List Char)
  | 0, _ => []
  | _ + 1, [] => []
  | fuel + 1, c :: cs =>
    if isWordChar c then
      (c :: cs.takeWhile isWordChar) :: wordRunsAux fuel (cs.dropWhile isWordChar)
    else
      wordRunsAux fuel cs

/-- `extract_query_terms`: tokenize the lower-cased input, drop stop words
and words of length at most 2. -/
def extractQueryTerms (userInput : String) : List String :=
  let cs := (strLower userInput).toList
  ((wordRunsAux cs.length cs).map String.mk).filter
    (fun t => ¬ stopWords.contains t ∧ t.length > 2)

/-- `simple_cosine_similarity`: Jaccard similarity of the two extracted term
sets (0 when either is empty), computed exactly in `ℚ`. -/
def simpleCosineSimilarity (text1 text2 : String) : ℚ :=
  let words1 := (extractQueryTerms text1).toFinset
  let words2 := (extractQueryTerms text2).toFinset
  if words1 = ∅ ∨ words2 = ∅ then 0
  else
    let u := words1 ∪ words2
    if u ≠ ∅ then ((words1 ∩ words2).card : ℚ) / (u.card : ℚ) else 0

/-- The `timestamp` field of a historical record, together with what
`datetime.fromisoformat` (for strings) or `float(...)` (for numbers) makes
of it.  `str s parsed`: a string field whose parse is `parsed` (`none` when
the library call raises).  `num x`: a numeric field (parses to itself).
`missing`: no usable field — `item.get('timestamp', '')` yields `''`, which
fails to parse. -/
inductive TsVal where
  | str (s : String) (parsed : Option ℝ)
  | num (x : ℝ)
  | missing

/-- Python truthiness of the raw `timestamp` field. -/
noncomputable def tsTruthy : TsVal → Bool
  | .str s _ => s ≠ ""
  | .num x => decide (x ≠ 0)
  | .missing => false

/-- The parsed epoch value, when the try-block of the recency factor
succeeds. -/
def tsParsedTime : TsVal → Option ℝ
  | .str _ parsed => parsed
  | .num x => some x
  | .missing => none

/-- One `HistoricalRecord` as read from the store (fields may be absent). -/
structure HistItem where
  user : Option String := none
  assistant : Option String := none
  timestamp : TsVal := .missing
  tool : Option String := none
  success : Bool := false
  result : Option String := none

/-- `f"{item.get('user', '')} {item.get('assistant', '')}".lower()`. -/
def itemText (item : HistItem) : String :=
  strLower (item.user.getD "" ++ " " ++ item.assistant.getD "")

/-- Python truthiness of `item.get('tool')` / `item.get('result')`. -/
def optTruthy (o : Option String) : Bool :=
  match o with
  | some s => s ≠ ""
  | none => false

/-- The recency factor of `calculate_historical_score`:
`exp(-age_hours / 168) * 0.30` on a parsed timestamp
(`age_hours = (current_time - item_time) / 3600`), and the 0.05 fallback
when the timestamp fails to parse. -/
noncomputable def recencyScore (ts : TsVal) (currentTime : ℝ) : ℝ :=
  match tsParsedTime ts with
  | some itemTime => Real.exp (-((currentTime - itemTime) / 3600) / 168) * 0.30
  | none => 0.05

/-- `calculate_historical_score`: the weighted sum of the six factors
(recency 0.30 with a 0.05 fallback when timestamp parsing raises, semantic
relevance 0.30, tool success 0.15/0.05, provenance 0.10, length penalty
0.10 … 0.01, diversity bonus 0.05). -/
noncomputable def calculateHistoricalScore (item : HistItem)
    (queryTerms : List String) (currentTime : ℝ) (seenTexts : List String) : ℝ :=
  let text := itemText item
  let recency : ℝ := recencyScore item.timestamp currentTime
  let queryText := String.intercalate " " queryTerms
  let relevance : ℝ := (simpleCosineSimilarity queryText text : ℝ) * 0.30
  let toolSig : ℝ :=
    if item.success ∧ optTruthy item.tool then 0.15
    else if optTruthy item.tool then 0.05
    else 0
  let provenance : ℝ :=
    (if tsTruthy item.timestamp then (0.03 : ℝ) else 0)
    + (if optTruthy item.tool then (0.04 : ℝ) else 0)
    + (if optTruthy item.result then (0.03 : ℝ) else 0)
  let lengthPenalty : ℝ :=
    if text.length < 200 then 0.10
    else if text.length < 500 then 0.07
    else if text.length < 1000 then 0.04
    else 0.01
  let diversity : ℝ :=
    if seenTexts.any (fun seen => decide ((0.8 : ℚ) < simpleCosineSimilarity text seen)) then 0
    else 0.05
  recency + relevance + toolSig + provenance + lengthPenalty + diversity

/-! ### `compress_to_bullets`

The bullet for one scored item is `- date — intent — summary — [tool: name]
— score: x.xx`.  The date string (`strftime` of the parsed timestamp, or
`"Unknown"`) and the two-decimal score rendering are produced by Python
library formatting, so they enter as rendering functions; the 50/80-character
truncation of intent and summary is translated directly.  The greedy
character budget makes the output bound independent of the rendering. -/

/-- The bullet line for one scored item. -/
def bulletFor (renderDate : TsVal → String) (renderScore : ℝ → String)
    (score : ℝ) (item : HistItem) : String :=
  let dateStr := renderDate item.timestamp
  let userQuery := item.user.getD "No query"
  let intent := if userQuery.length > 50 then userQuery.take 50 ++ "..." else userQuery
  let assistantResp := item.assistant.getD "No response"
  let summary := if assistantResp.length > 80 then assistantResp.take 80 ++ "..." else assistantResp
  let toolName := item.tool.getD "none"
  "- " ++ dateStr ++ " — " ++ intent ++ " — " ++ summary
    ++ " — [tool: " ++ toolName ++ "] — score: " ++ renderScore score

/-- The greedy bullet loop: take bullets in order while the running total
(`total_chars`, counting each bullet plus one newline) stays within
`maxChars`; the first bullet that would exceed it stops the loop. -/
def bulletLoop (mkBullet : ℝ × HistItem → String) (maxChars : Nat) :
    List (ℝ × HistItem) → Nat → List String
  | [], _ => []
  | it :: rest, total =>
    let bullet := mkBullet it
    if total + bullet.length + 1 > maxChars then []
    else bullet :: bulletLoop mkBullet maxChars rest (total + bullet.length + 1)

/-- `compress_to_bullets` (bullet list form): at most `maxBullets` items are
considered, then the greedy budget applies. -/
def compressToBulletsList (mkBullet : ℝ × HistItem → String)
    (items : List (ℝ × HistItem)) (maxBullets maxChars : Nat) : List String :=
  bulletLoop mkBullet maxChars (items.take maxBullets) 0

/-- `compress_to_bullets`: the bullets joined with newlines (`""` when no
bullet fits). -/
def compressToBullets (mkBullet : ℝ × HistItem → String)
    (items : List (ℝ × HistItem)) (maxBullets maxChars : Nat) : String :=
  let bullets := compressToBulletsList mkBullet items maxBullets maxChars
  if bullets.isEmpty then "" else joinNL bullets

/-- How `get_historical_context` finds the store: the file may be missing,
unreadable/not a JSON list, or a list of records. -/
inductive StoreLoad where
  | missing
  | loadFailure
  | items (records : List HistItem)

/-- The fixed sentinel answer. -/
def noContextSentinel : String := "No relevant historical context found."

/-- Score every record in order, accumulating `seen_texts` (every scored
record's text is added, accepted or not). -/
noncomputable def scoreRecords (queryTerms : List String) (currentTime : ℝ) :
    List HistItem → List String → List (ℝ × HistItem)
  | [], _ => []
  | item :: rest, seen =>
    (calculateHistoricalScore item queryTerms currentTime seen, item)
      :: scoreRecords queryTerms currentTime rest (seen ++ [itemText item])

/-- `get_historical_context`: load, extract query terms, score, sort by
score descending, compress, and fall back to the sentinel whenever the
digest would be empty. -/
noncomputable def getHistoricalContext (store : StoreLoad) (userInput : String)
    (currentTime : ℝ) (renderDate : TsVal → String) (renderScore : ℝ → String) :
    String :=
  match store with
  | .missing => noContextSentinel
  | .loadFailure => noContextSentinel
  | .items records =>
    if records.isEmpty then noContextSentinel
    else
      let queryTerms := extractQueryTerms userInput
      if queryTerms.isEmpty then noContextSentinel
      else
        let scored := scoreRecords queryTerms currentTime records []
        let sorted := scored.mergeSort
          (fun x y => decide (y.1 ≤ x.1))
        let summary := compressToBullets
          (fun si => bulletFor renderDate renderScore si.1 si.2) sorted 10 1500
        if summary = "" ∨ pyStrip summary = "" then noContextSentinel else summary

/-! ## The step-proposal validator (`Week-10/decision/decision.py`)

`Decision.run` sends the prompt to the LLM and parses the reply.  The LLM
reply and Python's `re`/`json` libraries are external, so the parsing stage
enters the embedding as the classified outcome of those library calls on the
raw text; everything after that point (salvage output, `next_step`
flattening, field defaulting, the catch-all `HUMAN_IN_LOOP` fallback) is
translated directly. -/

/-- The fields of the decoded JSON object that `Decision.run` consumes;
`none` = key absent. -/
structure PartialFields where
  step_index : Option Nat := none
  description : Option String := none
  type : Option String := none
  code : Option String := none
  conclusion : Option String := none
  plan_text : Option (List String) := none

/-- The value found under `next_step`, when the key is present: either a
nested object (merged over the top level by `dict.update`) or something that
is not an object (`dict.update` then raises, landing in the catch-all). -/
inductive NextStepVal where
  | obj (fields : PartialFields)
  | notAnObject (excMsg : String)

/-- A decoded top-level JSON value: an object with optional `next_step`, or
a non-object (whose `.setdefault` raises, with the given message). -/
inductive JsonVal where
  | obj (fields : PartialFields) (nextStep : Option NextStepVal)
  | notAnObject (excMsg : String)

/-- What the extraction/decoding stage of `Decision.run` did with the raw
LLM text: no fenced JSON block (`ValueError("No JSON block found")`),
a block that failed `json.loads` (with the `code` salvage-regex capture, if
any, already unescaped), or a decoded value. -/
inductive LLMParse where
  | noJsonBlock
  | decodeFailure (salvagedCode : Option String)
  | decoded (v : JsonVal)

/-- The fully-populated record `Decision.run` returns. -/
structure DecisionOutput where
  step_index : Nat
  description : String
  type : String
  code : String
  conclusion : String
  plan_text : List String
  raw_text : Option String := none
  human_in_loop_reason : Option String := none
  human_in_loop_message : Option String := none
  suggested_plan : Option (List String) := none

/-- The catch-all `except` branch of `Decision.run`: a `HUMAN_IN_LOOP`
proposal with reason `PLAN_FAILURE`. -/
def planFailureOutput (excMsg : String) (rawText : String) : DecisionOutput :=
  { step_index := 0,
    description := "Exception while parsing LLM output: " ++ excMsg,
    type := "HUMAN_IN_LOOP",
    code := "",
    conclusion := "",
    plan_text := ["Step 0: Failed to parse decision. Human intervention required."],
    raw_text := some (rawText.take 1000),
    human_in_loop_reason := some "PLAN_FAILURE",
    human_in_loop_message := some ("Failed to parse decision output: " ++ excMsg
      ++ ". Please provide a valid plan."),
    suggested_plan := some ["Step 0: Clarify the query", "Step 1: Retry with simpler approach"] }

/-- `dict.update(next_step)`: a key present in the nested object replaces
the top-level one. -/
def mergeNextStep (top nested : PartialFields) : PartialFields :=
  { step_index := nested.step_index <|> top.step_index,
    description := nested.description <|> top.description,
    type := nested.type <|> top.type,
    code := nested.code <|> top.code,
    conclusion := nested.conclusion <|> top.conclusion,
    plan_text := nested.plan_text <|> top.plan_text }

/-- The `defaults` / `setdefault` loop of `Decision.run`. -/
def applyDefaults (f : PartialFields) : DecisionOutput :=
  { step_index := f.step_index.getD 0,
    description := f.description.getD "Missing from LLM response",
    type := f.type.getD "NOP",
    code := f.code.getD "",
    conclusion := f.conclusion.getD "",
    plan_text := f.plan_text.getD ["Step 0: No valid plan returned by LLM."] }

/-- The parsing stage of `Decision.run` on a reply classified as `p`:
total by construction — every branch, including every exception branch,
produces a fully-populated record. -/
def decisionRun (p : LLMParse) (rawText : String) : DecisionOutput :=
  match p with
  | .noJsonBlock => planFailureOutput "No JSON block found" rawText
  | .decodeFailure salvagedCode =>
    let codeValue := salvagedCode.getD ""
    { step_index := 0,
      description := "Recovered partial JSON from LLM.",
      type := if codeValue ≠ "" then "CODE" else "NOP",
      code := codeValue,
      conclusion := "",
      plan_text := ["Step 0: Partial plan recovered due to JSON decode error."],
      raw_text := some (rawText.take 1000) }
  | .decoded (.notAnObject excMsg) => planFailureOutput excMsg rawText
  | .decoded (.obj fields nextStep) =>
    match nextStep with
    | some (.notAnObject excMsg) => planFailureOutput excMsg rawText
    | some (.obj nested) => applyDefaults (mergeNextStep fields nested)
    | none => applyDefaults fields

/-! ## The orchestrator (`Week-10/agent/agent_loop2.py`)

`agent/agentSession.py` and `action/executor.py` are not part of the given
sources; the `Step`/`Session` records and the executor-result shape are
modelled from the spec (§3 data model, §6 external interfaces) exactly as
`agent_loop2.py` consumes them.  The reasoning oracle (perception and
decision LLM calls) and the executor are external collaborators: each is an
answer stream indexed by its own call counter, so a theorem quantifying over
the streams covers every session.  `session_memory` only feeds text back
into oracle prompts and so is absorbed by the streams. -/

def GLOBAL_PREVIOUS_FAILURE_STEPS : Nat := 3
def MAX_STEPS : Nat := 3
def MAX_RETRIES : Nat := 3

/-- The evaluation fields of a perception result that the loop branches on,
plus the summary it stores. -/
structure PerceptionSnapshot where
  original_goal_achieved : Bool := false
  local_goal_achieved : Bool := false
  solution_summary : String := ""

/-- Modelled from the spec: the executor result of `run_user_code`
(spec §6: gateway failures "surface as a structured error rather than an
exception crossing the sandbox boundary"); `action/executor.py` is not under
the given sources.  Fields are exactly those `AgentLoop.execute_step`
reads. -/
structure ExecutorResponse where
  requires_human_intervention : Bool := false
  human_in_loop_reason : Option String := none
  error : Option String := none
  result : Option String := none

/-- Modelled from the spec: the `Step` record (spec §3: index, kind,
description, code body, conclusion text, retry count, status, execution
result, optional evaluation snapshot, and the HITL surface fields of §6);
`agent/agentSession.py` is not under the given sources.  The retry count of
a freshly created step is 0. -/
structure Step where
  index : Nat
  description : String
  type : String
  code : Option String := none
  conclusion : Option String := none
  status : String := "pending"
  retries : Nat := 0
  human_in_loop_reason : Option String := none
  human_in_loop_message : Option String := none
  suggested_plan : Option (List String) := none
  execution_result : Option ExecutorResponse := none
  error : Option String := none
  perception : Option PerceptionSnapshot := none

/-- A plan version: the immutable plan text plus the steps run under it. -/
structure PlanVersion where
  plan_text : List String
  steps : List Step

/-- Modelled from the spec: the `Session` record (spec §3: goal text,
ordered plan versions, cumulative `steps_executed`, terminal state);
`agent/agentSession.py` is not under the given sources. -/
structure Session where
  original_query : String
  plan_versions : List PlanVersion := []
  total_steps_executed : Nat := 0
  state_complete : Bool := false
  final_answer : Option String := none
  initial_perception : Option PerceptionSnapshot := none

/-- Modelled from the spec: `AgentSession.add_plan_version` appends a new
`PlanVersion` (spec §3: "A new `PlanVersion` is appended whenever the oracle
replans") holding the given first step and returns that step to the caller;
`agent/agentSession.py` is not under the given sources. -/
def addVersion (s : Session) (planText : List String) (first : Step) : Session :=
  { s with plan_versions := s.plan_versions ++ [⟨planText, [first]⟩] }

/-- Replace the in-place-mutated current step (position 0 of the latest plan
version's step list, where `add_plan_version` put it). -/
def setCurrentStep (s : Session) (st : Step) : Session :=
  match s.plan_versions.getLast? with
  | none => s
  | some v =>
    let steps' := match v.steps with
      | [] => [st]
      | _ :: rest => st :: rest
    { s with plan_versions := s.plan_versions.dropLast ++ [{ v with steps := steps' }] }

/-- Append a synthesized step to the latest plan version (the
`MAX_STEPS_EXCEEDED` path appends to `plan_versions[-1]["steps"]`). -/
def appendStepToLastVersion (s : Session) (st : Step) : Session :=
  match s.plan_versions.getLast? with
  | none => s
  | some v =>
    { s with plan_versions := s.plan_versions.dropLast ++ [{ v with steps := v.steps ++ [st] }] }

/-- Modelled from the spec: `AgentSession.mark_complete` moves the session
to its terminal complete state with the final answer (spec §4.1: "If
`original_goal_achieved`, session transitions to `COMPLETE`");
`agent/agentSession.py` is not under the given sources. -/
def markComplete (s : Session) (answer : Option String) : Session :=
  { s with state_complete := true, final_answer := answer }

/-- The external collaborators, one answer stream per interface, indexed by
that interface's own call counter. -/
structure Oracles where
  perception : Nat → PerceptionSnapshot
  decision : Nat → DecisionOutput
  executor : Nat → ExecutorResponse

/-- The loop state: the session plus how many calls each collaborator has
received so far (the executor counter also counts tool-invocation
attempts). -/
structure LoopState where
  session : Session
  percCalls : Nat := 0
  decCalls : Nat := 0
  execCalls : Nat := 0

/-- `AgentLoop.create_step`. -/
def createStep (d : DecisionOutput) : Step :=
  { index := d.step_index,
    description := d.description,
    type := d.type,
    code := if d.type = "CODE" then some d.code else none,
    conclusion := some d.conclusion,
    human_in_loop_reason := d.human_in_loop_reason,
    human_in_loop_message := d.human_in_loop_message,
    suggested_plan := d.suggested_plan }

/-- The in-place `MAX_RETRIES_EXCEEDED` conversion of `execute_step`. -/
def maxRetriesHumanStep (step : Step) : Step :=
  { step with
    type := "HUMAN_IN_LOOP",
    status := "awaiting_human",
    human_in_loop_reason := some "MAX_RETRIES_EXCEEDED",
    human_in_loop_message := some ("Step has been retried " ++ toString MAX_RETRIES
      ++ " times without success. Please provide guidance."),
    suggested_plan := some ["Review the step logic", "Provide alternative approach",
      "Skip this step"] }

/-- The in-place conversion of `execute_step` when the executor reports
`requires_human_intervention`: the step becomes `HUMAN_IN_LOOP` with the
executor's reason (default `TOOL_FAILURE`) and its retry count is
incremented. -/
def toolFailureHumanStep (step : Step) (response : ExecutorResponse) : Step :=
  { step with
    type := "HUMAN_IN_LOOP",
    status := "awaiting_human",
    human_in_loop_reason := some (response.human_in_loop_reason.getD "TOOL_FAILURE"),
    human_in_loop_message := some ("Tool execution failed: "
      ++ response.error.getD "Unknown error"),
    execution_result := some response,
    error := response.error,
    retries := step.retries + 1 }

/-- `AgentLoop.execute_step`: returns the step to hand back to the loop
(`none` for the CONCLUDE/NOP cases, which return `None` in the source) and
the updated state. -/
def executeStep (O : Oracles) (st : LoopState) (step : Step) :
    Option Step × LoopState :=
  if step.type = "CODE" then
    if step.retries ≥ MAX_RETRIES then
      let step' := maxRetriesHumanStep step
      (some step', { st with session := setCurrentStep st.session step' })
    else
      let response := O.executor st.execCalls
      let st1 := { st with execCalls := st.execCalls + 1 }
      if response.requires_human_intervention then
        let step' := toolFailureHumanStep step response
        (some step', { st1 with session := setCurrentStep st1.session step' })
      else
        let step1 := { step with execution_result := some response, status := "completed" }
        let pr := O.perception st1.percCalls
        let st2 := { st1 with percCalls := st1.percCalls + 1 }
        let step2 := { step1 with perception := some pr }
        let step3 :=
          if ¬ pr.local_goal_achieved then { step2 with retries := step2.retries + 1 }
          else step2
        (some step3, { st2 with session := setCurrentStep st2.session step3 })
  else if step.type = "CONCLUDE" then
    let pr := O.perception st.percCalls
    let st1 := { st with percCalls := st.percCalls + 1 }
    let step' := { step with status := "completed", perception := some pr }
    (none, { st1 with
      session := markComplete (setCurrentStep st1.session step') step.conclusion })
  else if step.type = "NOP" then
    let step' := { step with status := "clarification_needed" }
    (none, { st with session := setCurrentStep st.session step' })
  else if step.type = "HUMAN_IN_LOOP" then
    let step' := { step with status := "awaiting_human" }
    (some step', { st with session := setCurrentStep st.session step' })
  else
    (none, st)

/-- The decision-and-new-plan-version block shared by the replanning path,
`get_next_step` and the resume path. -/
def decideNextStep (O : Oracles) (st : LoopState) : Option Step × LoopState :=
  let d := O.decision st.decCalls
  let st1 := { st with decCalls := st.decCalls + 1 }
  if d.type = "HUMAN_IN_LOOP" then
    let humanStep := { createStep d with status := "awaiting_human" }
    (some humanStep, { st1 with session := addVersion st1.session d.plan_text humanStep })
  else
    let step := createStep d
    (some step, { st1 with session := addVersion st1.session d.plan_text step })

/-- `AgentLoop.get_next_step`: advance within the current plan text if a
next line exists, else finish. -/
def getNextStep (O : Oracles) (st : LoopState) (step : Step) :
    Option Step × LoopState :=
  let nextIndex := step.index + 1
  let totalSteps := (st.session.plan_versions.getLast?.map PlanVersion.plan_text).getD [] |>.length
  if nextIndex < totalSteps then decideNextStep O st
  else (none, st)

/-- `AgentLoop.evaluate_step`. -/
def evaluateStep (O : Oracles) (st : LoopState) (step : Step) :
    Option Step × LoopState :=
  let pr := step.perception.getD {}
  if pr.original_goal_achieved then
    (none, { st with session := markComplete st.session none })
  else if pr.local_goal_achieved then
    getNextStep O st step
  else
    decideNextStep O st

/-- The synthesized `MAX_STEPS_EXCEEDED` step of `AgentLoop.run`. -/
def maxStepsHumanStep (step : Step) : Step :=
  { index := step.index,
    description := "Maximum steps (" ++ toString MAX_STEPS ++ ") reached",
    type := "HUMAN_IN_LOOP",
    status := "awaiting_human",
    human_in_loop_reason := some "MAX_STEPS_EXCEEDED",
    human_in_loop_message := some ("Agent has executed " ++ toString MAX_STEPS
      ++ " steps without completing the goal. Please provide guidance."),
    suggested_plan := some ["Review completed steps", "Provide alternative approach",
      "Simplify the query"] }

/-- The `while step:` loop of `AgentLoop.run`.  The loop body increments
`total_steps_executed` before every recursive continuation and breaks at
`MAX_STEPS`, so `MAX_STEPS + 1` fuel always reaches the source loop's own
exit (`runLoop_fuel_free` below). -/
def runLoop (O : Oracles) : Nat → LoopState → Step → LoopState
  | 0, st, _ => st
  | fuel + 1, st, step =>
    if st.session.total_steps_executed ≥ MAX_STEPS then
      { st with session := appendStepToLastVersion st.session (maxStepsHumanStep step) }
    else
      match executeStep O st step with
      | (none, st') => st'
      | (some stepResult, st') =>
        if stepResult.type = "HUMAN_IN_LOOP" then st'
        else
          let st'' := { st' with session := { st'.session with
            total_steps_executed := st'.session.total_steps_executed + 1 } }
          match evaluateStep O st'' stepResult with
          | (none, st3) => st3
          | (some next, st3) => runLoop O fuel st3 next

/-- `AgentLoop.run`. -/
def runAgentState (O : Oracles) (query : String) : LoopState :=
  let session0 : Session := { original_query := query }
  let pr := O.perception 0
  let st1 : LoopState :=
    { session := { session0 with initial_perception := some pr }, percCalls := 1 }
  if pr.original_goal_achieved then
    { st1 with session := markComplete st1.session (some pr.solution_summary) }
  else
    let d := O.decision 0
    let st2 := { st1 with decCalls := 1 }
    if d.type = "HUMAN_IN_LOOP" then
      let step := { createStep d with status := "awaiting_human" }
      { st2 with session := addVersion st2.session d.plan_text step }
    else
      let step := createStep d
      let st3 := { st2 with session := addVersion st2.session d.plan_text step }
      runLoop O (MAX_STEPS + 1) st3 step

/-- The resume loop of `AgentLoop.resume_with_guidance`: same body, but the
budget check uses `MAX_STEPS + 3` ("extra buffer for HITL recovery") and on
reaching it the loop breaks without synthesizing any step. -/
def resumeLoop (O : Oracles) : Nat → LoopState → Step → LoopState
  | 0, st, _ => st
  | fuel + 1, st, step =>
    if st.session.total_steps_executed ≥ MAX_STEPS + 3 then st
    else
      match executeStep O st step with
      | (none, st') => st'
      | (some stepResult, st') =>
        if stepResult.type = "HUMAN_IN_LOOP" then st'
        else
          let st'' := { st' with session := { st'.session with
            total_steps_executed := st'.session.total_steps_executed + 1 } }
          match evaluateStep O st'' stepResult with
          | (none, st3) => st3
          | (some next, st3) => resumeLoop O fuel st3 next

/-- `AgentLoop.resume_with_guidance`: two replanning calls are issued (the
first result is discarded by the source), then either the pause continues
(`HUMAN_IN_LOOP` replan) or a new plan version starts the resume loop. -/
def resumeWithGuidance (O : Oracles) (st : LoopState) : LoopState :=
  let st1 := { st with decCalls := st.decCalls + 1 }
  let d := O.decision st1.decCalls
  let st2 := { st1 with decCalls := st1.decCalls + 1 }
  if d.type = "HUMAN_IN_LOOP" then st2
  else
    let step := createStep d
    let st3 := { st2 with session := addVersion st2.session d.plan_text step }
    resumeLoop O (MAX_STEPS + 4) st3 step

/-! ## Claim-side predicates

Definitions below state claim hypotheses and conclusions; they follow the
wording of the specification (they are compared against the translated code
by the theorems, not used to define it). -/

/-- The deny-list as the claim enumerates it: ten literal fragments, each of
which triggers one of the `UNSAFE_PATTERNS` regexes. -/
def claimDenyList : List String :=
  ["../", "<script", "delete from", "drop table", "rm -rf",
   "eval(", "exec(", "__import__", "system(", "popen("]

/-- A structured `[sandbox error: ...]` result string. -/
def isSandboxError (s : String) : Prop :=
  ∃ m, s = "[sandbox error: " ++ m ++ "]"

/-- The internal failures of the sandboxed executor enumerated by the claim:
module-level `exec` raises, no `solve` defined, tool-call quota exceeded,
`solve` raises (which includes tool errors surfacing as exceptions), or the
timeout fires. -/
def behaviorFails : ExecBehavior → Prop
  | .moduleRaises _ => True
  | .noSolve => True
  | .solveRuns b =>
    b.calls > MAX_TOOL_CALLS_PER_PLAN ∨
      (match b.outcome with
       | .returns _ => False
       | .raises _ => True
       | .timesOut => True)

/-- A statement of the forms the claim says are forbidden directly in the
`solve` body: a nested (non-`solve`) function definition, a class
definition, an import statement, an expression statement calling a
deny-listed built-in, or a `while` loop with no `break` anywhere in it. -/
def directlyForbidden : PyStmt → Bool
  | .functionDef name _ => name ≠ "solve"
  | .classDef _ _ => true
  | .importStmt _ => true
  | .importFrom _ _ => true
  | .whileStmt _ body orelse => !(stmtsHaveBreak body || stmtsHaveBreak orelse)
  | .exprStmt (.call (.name id) _) => dangerousBuiltins.contains id
  | _ => false

/-- Concrete collaborators for the retry counterexample: the decision oracle
always proposes a CODE step, the executor always fails (reporting
`requires_human_intervention` with no explicit reason), and perception never
sees the goals achieved. -/
def failingToolOracles : Oracles :=
  { perception := fun _ => { original_goal_achieved := false, local_goal_achieved := false },
    decision := fun _ =>
      { step_index := 0, description := "call the failing tool", type := "CODE",
        code := "plan", conclusion := "", plan_text := ["Step 0: call the failing tool"] },
    executor := fun _ =>
      { requires_human_intervention := true, error := some "tool unavailable" } }

/-- Concrete collaborators for the step-budget counterexample: every CODE
step succeeds at its local goal, the original goal is never achieved, and
each plan has two lines so the loop keeps asking for a next step. -/
def busyOracles : Oracles :=
  { perception := fun _ => { original_goal_achieved := false, local_goal_achieved := true },
    decision := fun _ =>
      { step_index := 0, description := "one more step", type := "CODE",
        code := "plan", conclusion := "", plan_text := ["Step 0: a", "Step 1: b"] },
    executor := fun _ => {} }

/-! # Theorems -/

/-! ## Matching lemmas for the deny-list patterns -/

theorem matchToks_map_ch (l : List Char) (ps : List PatTok) (cs : List Char) :
    matchToks (l.map PatTok.ch ++ ps) (l ++ cs) = matchToks ps cs := by
  induction l with
  | nil => rfl
  | cons c t ih => simp [matchToks, ih]

theorem matchToks_litToks (l : String) (ps : List PatTok) (cs : List Char) :
    matchToks (litToks l ++ ps) (l.toList ++ cs) = matchToks ps cs :=
  matchToks_map_ch l.toList ps cs

theorem searchToks_of_matchToks (ps : List PatTok) (a b : List Char)
    (h : matchToks ps b = true) : searchToks ps (a ++ b) = true := by
  induction a with
  | nil =>
    cases b with
    | nil => simpa [searchToks] using h
    | cons c cs => simp [searchToks, h]
  | cons c cs ih => simp [searchToks, ih]

theorem matchToks_litToks_nil (l : String) (b : List Char) :
    matchToks (litToks l) (l.toList ++ b) = true := by
  have h2 := matchToks_litToks l [] b
  rw [List.append_nil] at h2
  have h3 : matchToks [] b = true := by cases b <;> rfl
  exact h2.trans h3

/-- A pure-literal pattern matches wherever its text occurs. -/
theorem searchToks_lit (l : String) (a b cs : List Char)
    (hcs : cs = a ++ l.toList ++ b) :
    searchToks (litToks l) cs = true := by
  subst hcs
  rw [List.append_assoc]
  exact searchToks_of_matchToks _ _ _ (matchToks_litToks_nil l b)

/-- A literal-gap-literal pattern (`x` then one-or-more `f`-characters then
`y`) matches wherever `x`, one `f`-character and `y` occur contiguously. -/
theorem searchToks_lit_mid (x y : String) (f : Char → Bool) (c : Char)
    (hc : f c = true) (a b cs : List Char)
    (hcs : cs = a ++ x.toList ++ c :: (y.toList ++ b)) :
    searchToks (litToks x ++ PatTok.plus f :: litToks y) cs = true := by
  subst hcs
  rw [List.append_assoc]
  apply searchToks_of_matchToks
  rw [matchToks_litToks]
  have hy := matchToks_litToks_nil y b
  simp only [matchToks, hc, hy, Bool.true_and, Bool.true_or]

theorem append_singleton_append {α : Type} (A B : List α) (p : α) :
    A ++ [p] ++ B = A ++ p :: B := by simp

/-- Each claim literal, occurring anywhere in the lower-cased code, triggers
`contains_unsafe_arguments`. -/
theorem containsUnsafe_of_claimLiteral (code : String) (p : String)
    (hp : p ∈ claimDenyList)
    (hinf : p.toList <:+: (strLower code).toList) :
    containsUnsafeArguments code = true := by
  obtain ⟨s, t, hst⟩ := hinf
  show UNSAFE_PATTERNS.any (fun q => searchToks q ((strLower code).toList)) = true
  rw [List.any_eq_true]
  simp only [claimDenyList, List.mem_cons, List.not_mem_nil, or_false] at hp
  rcases hp with h | h | h | h | h | h | h | h | h | h
  · refine ⟨litToks ".." ++ [.plus (fun c => c = '/')], by simp [UNSAFE_PATTERNS], ?_⟩
    subst h
    have hpat : litToks ".." ++ [PatTok.plus (fun c => decide (c = '/'))]
        = litToks ".." ++ PatTok.plus (fun c => decide (c = '/')) :: litToks "" := rfl
    rw [hpat]
    apply searchToks_lit_mid ".." "" _ '/' (by decide) s t
    rw [← hst]
    have e0 : ("../".toList : List Char) = ['.', '.', '/'] := by decide
    have e1 : ("..".toList : List Char) = ['.', '.'] := by decide
    have e2 : ("".toList : List Char) = [] := by decide
    rw [e0, e1, e2]
    simp
  · refine ⟨litToks "<script", by simp [UNSAFE_PATTERNS], ?_⟩
    subst h
    exact searchToks_lit "<script" s t _ hst.symm
  · refine ⟨litToks "delete" ++ [.plus isPySpace] ++ litToks "from",
      by simp [UNSAFE_PATTERNS], ?_⟩
    subst h
    rw [append_singleton_append]
    apply searchToks_lit_mid "delete" "from" isPySpace ' ' (by decide) s t
    rw [← hst]
    have e0 : ("delete from".toList : List Char)
        = ['d', 'e', 'l', 'e', 't', 'e', ' ', 'f', 'r', 'o', 'm'] := by decide
    have e1 : ("delete".toList : List Char) = ['d', 'e', 'l', 'e', 't', 'e'] := by decide
    have e2 : ("from".toList : List Char) = ['f', 'r', 'o', 'm'] := by decide
    rw [e0, e1, e2]
    simp
  · refine ⟨litToks "drop" ++ [.plus isPySpace] ++ litToks "table",
      by simp [UNSAFE_PATTERNS], ?_⟩
    subst h
    rw [append_singleton_append]
    apply searchToks_lit_mid "drop" "table" isPySpace ' ' (by decide) s t
    rw [← hst]
    have e0 : ("drop table".toList : List Char)
        = ['d', 'r', 'o', 'p', ' ', 't', 'a', 'b', 'l', 'e'] := by decide
    have e1 : ("drop".toList : List Char) = ['d', 'r', 'o', 'p'] := by decide
    have e2 : ("table".toList : List Char) = ['t', 'a', 'b', 'l', 'e'] := by decide
    rw [e0, e1, e2]
    simp
  · refine ⟨litToks "rm" ++ [.plus isPySpace] ++ litToks "-rf",
      by simp [UNSAFE_PATTERNS], ?_⟩
    subst h
    rw [append_singleton_append]
    apply searchToks_lit_mid "rm" "-rf" isPySpace ' ' (by decide) s t
    rw [← hst]
    have e0 : ("rm -rf".toList : List Char) = ['r', 'm', ' ', '-', 'r', 'f'] := by decide
    have e1 : ("rm".toList : List Char) = ['r', 'm'] := by decide
    have e2 : ("-rf".toList : List Char) = ['-', 'r', 'f'] := by decide
    rw [e0, e1, e2]
    simp
  · refine ⟨litToks "eval(", by simp [UNSAFE_PATTERNS], ?_⟩
    subst h
    exact searchToks_lit "eval(" s t _ hst.symm
  · refine ⟨litToks "exec(", by simp [UNSAFE_PATTERNS], ?_⟩
    subst h
    exact searchToks_lit "exec(" s t _ hst.symm
  · refine ⟨litToks "__import__", by simp [UNSAFE_PATTERNS], ?_⟩
    subst h
    exact searchToks_lit "__import__" s t _ hst.symm
  · refine ⟨litToks "system(", by simp [UNSAFE_PATTERNS], ?_⟩
    subst h
    exact searchToks_lit "system(" s t _ hst.symm
  · refine ⟨litToks "popen(", by simp [UNSAFE_PATTERNS], ?_⟩
    subst h
    exact searchToks_lit "popen(" s t _ hst.symm

/-- C1: for every code string containing any pattern of the fixed deny-list
(path traversal `../`, `<script`, `delete from`, `drop table`, `rm -rf`,
`eval(`, `exec(`, `__import__`, `system(`, `popen(`), `run_python_sandbox`
returns the policy-violation error string
`[sandbox error: unsafe code patterns detected]` without compiling or
executing the code (`executed = false`) and without invoking any tool
through the gateway (`forwarded = 0`), whatever the code would have done
(`beh`). -/
theorem run_python_sandbox_blocks_unsafe_patterns (code : PyCode)
    (beh : ExecBehavior)
    (h : ∃ p ∈ claimDenyList, p.toList <:+: (strLower code.text).toList) :
    runPythonSandbox code beh =
      { output := "[sandbox error: unsafe code patterns detected]",
        executed := false, forwarded := 0 } := by
  obtain ⟨p, hp, hinf⟩ := h
  have hc := containsUnsafe_of_claimLiteral code.text p hp hinf
  unfold runPythonSandbox
  rw [hc]
  simp

/-- C1 witness: the concrete code `a = eval(input)` contains the deny-list
pattern `eval(` and is blocked unexecuted, even though its behaviour
parameter says it would run ten tool calls. -/
theorem run_python_sandbox_blocks_unsafe_patterns_checked :
    runPythonSandbox ⟨"a = eval(input)", .ok [.assign (.call (.name "eval") [.name "input"])]⟩
        (.solveRuns ⟨10, .returns (.other "done")⟩) =
      { output := "[sandbox error: unsafe code patterns detected]",
        executed := false, forwarded := 0 } :=
  run_python_sandbox_blocks_unsafe_patterns _ _ ⟨"eval(", by decide, by decide⟩

/-! ## Quota accounting of the gateway handle -/

theorem runCalls_frozen (n : Nat) (st : SandboxMCPState) (h : st.errored = true) :
    runCalls n st = st := by
  induction n generalizing st with
  | zero => rfl
  | succ n ih =>
    rw [runCalls]
    have hstep : callToolStep "tool" st = st := by
      simp [callToolStep, h]
    rw [hstep]
    exact ih st h

theorem runCalls_spec (n : Nat) (st : SandboxMCPState)
    (he : st.errored = false) (hc : st.call_count = st.forwarded)
    (hb : st.forwarded ≤ MAX_TOOL_CALLS_PER_PLAN) :
    (runCalls n st).forwarded = min (st.forwarded + n) MAX_TOOL_CALLS_PER_PLAN ∧
    (runCalls n st).errored = decide (st.forwarded + n > MAX_TOOL_CALLS_PER_PLAN) := by
  unfold MAX_TOOL_CALLS_PER_PLAN at hb ⊢
  induction n generalizing st with
  | zero =>
    rw [runCalls]
    refine ⟨by omega, ?_⟩
    rw [he, eq_comm, decide_eq_false_iff_not]
    omega
  | succ n ih =>
    rw [runCalls]
    by_cases hf : st.forwarded = 10
    · have hstep : callToolStep "tool" st
          = { st with call_count := st.call_count + 1, errored := true } := by
        unfold callToolStep MAX_TOOL_CALLS_PER_PLAN
        rw [he]
        simp only [Bool.false_eq_true, if_false]
        rw [if_pos]
        omega
      rw [hstep, runCalls_frozen _ _ rfl]
      refine ⟨by simp only; omega, ?_⟩
      show true = _
      rw [eq_comm, decide_eq_true_iff]
      omega
    · have hlt : st.forwarded < 10 := lt_of_le_of_ne hb hf
      have hstep : callToolStep "tool" st
          = { st with call_count := st.call_count + 1, forwarded := st.forwarded + 1,
                      tools_called := st.tools_called ++ ["tool"] } := by
        unfold callToolStep MAX_TOOL_CALLS_PER_PLAN
        rw [he]
        simp only [Bool.false_eq_true, if_false]
        rw [if_neg]
        omega
      rw [hstep]
      have hrec := ih
        { st with call_count := st.call_count + 1, forwarded := st.forwarded + 1,
                  tools_called := st.tools_called ++ ["tool"] }
        he (by simp [hc]) (by simp only; omega)
      simp only at hrec
      obtain ⟨h1, h2⟩ := hrec
      refine ⟨by rw [h1]; omega, ?_⟩
      rw [h2, decide_eq_decide]
      omega

/-- C8: the gateway handle counts invocations; at most
`MAX_TOOL_CALLS_PER_PLAN = 10` of them reach the real dispatcher, and a plan
attempting more than the quota makes the executor return the quota execution
error with exactly 10 dispatched calls (the over-quota invocation raises
before dispatching). -/
theorem sandbox_tool_call_quota (code : PyCode) (b : SolveBehavior)
    (hsafe : containsUnsafeArguments code.text = false)
    (hvalid : (validateSolveCode code).1 = true) :
    (∀ n, (runCalls n {}).forwarded ≤ MAX_TOOL_CALLS_PER_PLAN) ∧
    (runCalls b.calls {}).forwarded = min b.calls MAX_TOOL_CALLS_PER_PLAN ∧
    (b.calls > MAX_TOOL_CALLS_PER_PLAN →
      (runPythonSandbox code (.solveRuns b)).output
          = "[sandbox error: Exceeded max tool calls (10) in solve() plan.]" ∧
      (runPythonSandbox code (.solveRuns b)).forwarded = MAX_TOOL_CALLS_PER_PLAN) := by
  have hspec : ∀ n, (runCalls n ({} : SandboxMCPState)).forwarded
        = min n MAX_TOOL_CALLS_PER_PLAN ∧
      (runCalls n ({} : SandboxMCPState)).errored
        = decide (n > MAX_TOOL_CALLS_PER_PLAN) := by
    intro n
    have h := runCalls_spec n {} rfl rfl (by decide)
    simpa using h
  refine ⟨fun n => ?_, (hspec b.calls).1, fun hq => ?_⟩
  · rw [(hspec n).1]
    exact Nat.min_le_right _ _
  · have herr : (runCalls b.calls ({} : SandboxMCPState)).errored = true := by
      rw [(hspec b.calls).2, decide_eq_true_iff]
      exact hq
    have hrun : runPythonSandbox code (.solveRuns b) =
        { output := "[sandbox error: Exceeded max tool calls ("
            ++ toString MAX_TOOL_CALLS_PER_PLAN ++ ") in solve() plan.]",
          executed := true, forwarded := (runCalls b.calls {}).forwarded } := by
      unfold runPythonSandbox
      rw [hsafe]
      simp only [Bool.false_eq_true, if_false]
      rw [hvalid]
      simp only [Bool.not_true, Bool.false_eq_true, if_false]
      rw [herr]
      simp
    rw [hrun]
    refine ⟨?_, ?_⟩
    · show ("[sandbox error: Exceeded max tool calls ("
          ++ toString MAX_TOOL_CALLS_PER_PLAN ++ ") in solve() plan.]" : String) = _
      decide
    · show (runCalls b.calls ({} : SandboxMCPState)).forwarded = _
      rw [(hspec b.calls).1]
      unfold MAX_TOOL_CALLS_PER_PLAN at hq ⊢
      omega

/-- C8 witness: a validated plan attempting 11 tool calls forwards exactly
10 of them and yields the quota error. -/
theorem sandbox_tool_call_quota_checked :
    ((runCalls 7 {}).forwarded ≤ MAX_TOOL_CALLS_PER_PLAN) ∧
    (runCalls 11 ({} : SandboxMCPState)).forwarded = min 11 MAX_TOOL_CALLS_PER_PLAN ∧
    ((runPythonSandbox ⟨"x = 1", .ok [.assign .const]⟩
        (.solveRuns ⟨11, .returns (.other "done")⟩)).output
      = "[sandbox error: Exceeded max tool calls (10) in solve() plan.]" ∧
     (runPythonSandbox ⟨"x = 1", .ok [.assign .const]⟩
        (.solveRuns ⟨11, .returns (.other "done")⟩)).forwarded
      = MAX_TOOL_CALLS_PER_PLAN) := by
  have h := sandbox_tool_call_quota ⟨"x = 1", .ok [.assign .const]⟩
    ⟨11, .returns (.other "done")⟩ (by decide) (by decide)
  exact ⟨h.1 7, h.2.1, h.2.2 (by decide)⟩

/-! ## Totality and error normalisation of the executor -/

/-- C5: the sandboxed executor is a total function into result strings (by
construction of `runPythonSandbox`), and every internal failure — policy
rejection, validation failure, module-level exception, missing `solve()`,
tool-quota overrun, `solve()` exception, timeout — produces a structured
`[sandbox error: ...]` string. -/
theorem run_python_sandbox_failures_yield_error_strings (code : PyCode)
    (beh : ExecBehavior)
    (h : containsUnsafeArguments code.text = true
        ∨ (validateSolveCode code).1 = false ∨ behaviorFails beh) :
    isSandboxError (runPythonSandbox code beh).output := by
  by_cases hsafe : containsUnsafeArguments code.text = true
  · unfold runPythonSandbox
    rw [hsafe]
    exact ⟨"unsafe code patterns detected", by simp⟩
  · rw [Bool.not_eq_true] at hsafe
    by_cases hvalid : (validateSolveCode code).1 = true
    · have hbf : behaviorFails beh := by
        rcases h with h | h | h
        · rw [hsafe] at h; cases h
        · rw [hvalid] at h; cases h
        · exact h
      cases beh with
      | moduleRaises msg =>
        unfold runPythonSandbox
        rw [hsafe]
        simp only [Bool.false_eq_true, if_false]
        rw [hvalid]
        exact ⟨msg, by simp⟩
      | noSolve =>
        unfold runPythonSandbox
        rw [hsafe]
        simp only [Bool.false_eq_true, if_false]
        rw [hvalid]
        exact ⟨"No solve() function found in plan.", by simp⟩
      | solveRuns b =>
        unfold runPythonSandbox
        rw [hsafe]
        simp only [Bool.false_eq_true, if_false]
        rw [hvalid]
        simp only [Bool.not_true, Bool.false_eq_true, if_false]
        by_cases herr : (runCalls b.calls {}).errored = true
        · rw [if_pos herr]
          refine ⟨"Exceeded max tool calls (10) in solve() plan.", ?_⟩
          show ("[sandbox error: Exceeded max tool calls ("
            ++ toString MAX_TOOL_CALLS_PER_PLAN ++ ") in solve() plan.]" : String) = _
          decide
        · rw [if_neg herr]
          rw [Bool.not_eq_true] at herr
          have hbf2 : b.calls > MAX_TOOL_CALLS_PER_PLAN ∨
              (match b.outcome with
               | SolveOutcome.returns _ => False
               | SolveOutcome.raises _ => True
               | SolveOutcome.timesOut => True) := hbf
          rcases hout : b.outcome with v | msg | _
          · exfalso
            rw [hout] at hbf2
            simp only [or_false] at hbf2
            have hdec := (runCalls_spec b.calls {} rfl rfl (by decide)).2
            simp only [Nat.zero_add] at hdec
            rw [herr, eq_comm, decide_eq_false_iff_not] at hdec
            exact hdec hbf2
          · exact ⟨msg, rfl⟩
          · exact ⟨"execution timeout", rfl⟩
    · rw [Bool.not_eq_true] at hvalid
      unfold runPythonSandbox
      rw [hsafe]
      simp only [Bool.false_eq_true, if_false]
      rw [hvalid]
      refine ⟨"validation failed - " ++ String.intercalate "; " (validateSolveCode code).2, ?_⟩
      have hsplit : ("[sandbox error: validation failed - " : String)
          = "[sandbox error: " ++ "validation failed - " := by decide
      rw [hsplit, String.append_assoc]
      rfl

/-- C5 witness: a policy-clean, validated plan whose `solve()` raises yields
an error-formatted result string. -/
theorem run_python_sandbox_failures_yield_error_strings_checked :
    isSandboxError (runPythonSandbox ⟨"x = 1", .ok [.assign .const]⟩
      (.solveRuns ⟨0, .raises "division by zero"⟩)).output :=
  run_python_sandbox_failures_yield_error_strings _ _ (Or.inr (Or.inr (Or.inr trivial)))

/-! ## The structural `solve()` linter -/

theorem lintStmts_append (flag : Bool) (xs ys : List PyStmt) :
    lintStmts flag (xs ++ ys)
      = ((lintStmts (lintStmts flag xs).1 ys).1,
         (lintStmts flag xs).2 ++ (lintStmts (lintStmts flag xs).1 ys).2) := by
  induction xs generalizing flag with
  | nil => simp [lintStmts]
  | cons s rest ih =>
    simp only [List.cons_append, lintStmts, List.append_eq]
    rw [ih]
    simp [List.append_assoc]

theorem lintStmt_forbidden_ne_nil (s : PyStmt) (h : directlyForbidden s = true) :
    (lintStmt true s).2 ≠ [] := by
  cases s with
  | functionDef name body =>
    have hn : ¬ name = "solve" := by simpa [directlyForbidden] using h
    simp [lintStmt, hn]
  | asyncFunctionDef name body => simp [directlyForbidden] at h
  | classDef name body => simp [lintStmt]
  | importStmt modules => simp [lintStmt]
  | importFrom module names => simp [lintStmt]
  | whileStmt test body orelse =>
    have hb : (stmtsHaveBreak body || stmtsHaveBreak orelse) = false := by
      simpa [directlyForbidden] using h
    simp [lintStmt, hb]
  | forStmt iter body => simp [directlyForbidden] at h
  | ifStmt test body orelse => simp [directlyForbidden] at h
  | exprStmt e =>
    cases e with
    | name id => simp [directlyForbidden] at h
    | const => simp [directlyForbidden] at h
    | attr obj field => simp [directlyForbidden] at h
    | call f args =>
      cases f with
      | name id =>
        have hd : id ∈ dangerousBuiltins := by
          have hd0 : dangerousBuiltins.contains id = true := by
            simpa [directlyForbidden] using h
          simpa using hd0
        simp [lintStmt, lintExpr, hd]
      | const => simp [directlyForbidden] at h
      | attr obj field => simp [directlyForbidden] at h
      | call g bs => simp [directlyForbidden] at h
  | assign value => simp [directlyForbidden] at h
  | returnStmt value => simp [directlyForbidden] at h
  | breakStmt => simp [directlyForbidden] at h
  | passStmt => simp [directlyForbidden] at h

/-- C6 counterexample: `validate_solve_code` accepts code that defines no
`solve` routine at all — the structural check does not require a top-level
`solve` (nor exactly one), so "accepts only if it defines exactly one
top-level entry routine named solve" fails on this input. -/
theorem validate_accepts_code_without_solve :
    validateSolveCode ⟨"x = 1", .ok [.assign .const]⟩ = (true, []) := by decide

/-- C6 (amended): whenever the parsed module has a top-level `def solve`
whose body contains — after a prefix that keeps the linter's `in_solve` flag
set — a nested function or class definition, an import statement, a call
statement to a deny-listed built-in (`eval`, `exec`, `compile`,
`__import__`, `open`, `system`), or a `while` loop with no `break`, the
validator rejects with a non-empty itemized error list and the sandbox
refuses to execute the code (no compilation, no tool calls); missing
`solve`, however, is not checked here (see the counterexample). -/
theorem lintStmt_solveDef (fl : Bool) (body : List PyStmt) :
    lintStmt fl (PyStmt.functionDef "solve" body) = (false, (lintStmts true body).2) := by
  simp [lintStmt]

theorem linter_rejects_forbidden_solve_body (code : PyCode)
    (m pre post p q : List PyStmt) (bad : PyStmt) (beh : ExecBehavior)
    (hast : code.ast = .ok m)
    (hm : m = pre ++ PyStmt.functionDef "solve" (p ++ bad :: q) :: post)
    (hflag : (lintStmts true p).1 = true)
    (hbad : directlyForbidden bad = true) :
    (validateSolveCode code).1 = false ∧ (validateSolveCode code).2 ≠ [] ∧
    (runPythonSandbox code beh).executed = false ∧
    (runPythonSandbox code beh).forwarded = 0 := by
  have hne := lintStmt_forbidden_ne_nil bad hbad
  have hlintm : lintModule m ≠ [] := by
    unfold lintModule
    rw [hm, lintStmts_append]
    simp only [lintStmts, lintStmt_solveDef]
    rw [lintStmts_append, hflag]
    simp only [lintStmts]
    intro hcontra
    simp only [List.append_eq_nil] at hcontra
    exact hne (by tauto)
  obtain ⟨a, t, hat⟩ := List.exists_cons_of_ne_nil hlintm
  have hlsf : lintSolveFunction code = (false, a :: t) := by
    unfold lintSolveFunction
    rw [hast]
    simp only [hat]
    simp
  have hval2 : (validateSolveCode code).2
      = ((if containsUnsafeArguments code.text then ["Code contains unsafe patterns"] else [])
        ++ ((if exceedsToolDiversityLimit code.text then ["Code uses more than 3 distinct tools"] else [])
        ++ ((if hasExcessiveRepeats code.text then ["Code calls the same tool more than 2 times"] else [])
        ++ (a :: t)))) := by
    show ((if containsUnsafeArguments code.text then ["Code contains unsafe patterns"] else [])
        ++ (if exceedsToolDiversityLimit code.text then ["Code uses more than 3 distinct tools"] else [])
        ++ (if hasExcessiveRepeats code.text then ["Code calls the same tool more than 2 times"] else [])
        ++ (let lr := lintSolveFunction code
            if lr.1 then [] else lr.2)) = _
    rw [hlsf]
    simp [List.append_assoc]
  have hsnd : (validateSolveCode code).2 ≠ [] := by
    rw [hval2]
    intro hcontra
    simp only [List.append_eq_nil] at hcontra
    exact absurd (by tauto : (a :: t : List String) = []) (by simp)
  have hfst : (validateSolveCode code).1 = false := by
    have h1 : (validateSolveCode code).1 = (validateSolveCode code).2.isEmpty := rfl
    rw [h1, Bool.eq_false_iff]
    intro hT
    rw [List.isEmpty_iff] at hT
    exact hsnd hT
  refine ⟨hfst, hsnd, ?_, ?_⟩ <;>
  · unfold runPythonSandbox
    by_cases hsafe : containsUnsafeArguments code.text = true
    · rw [hsafe]
      rfl
    · rw [Bool.not_eq_true] at hsafe
      rw [hsafe]
      simp only [Bool.false_eq_true, if_false]
      rw [hfst]
      rfl

/-- C6 witness: concrete code whose `solve` body is a single import
statement is rejected with a non-empty error list and never executed. -/
theorem linter_rejects_forbidden_solve_body_checked :
    (validateSolveCode ⟨"def solve(): import os",
        .ok [.functionDef "solve" [.importStmt ["os"]]]⟩).1 = false ∧
    (validateSolveCode ⟨"def solve(): import os",
        .ok [.functionDef "solve" [.importStmt ["os"]]]⟩).2 ≠ [] ∧
    (runPythonSandbox ⟨"def solve(): import os",
        .ok [.functionDef "solve" [.importStmt ["os"]]]⟩ .noSolve).executed = false ∧
    (runPythonSandbox ⟨"def solve(): import os",
        .ok [.functionDef "solve" [.importStmt ["os"]]]⟩ .noSolve).forwarded = 0 :=
  linter_rejects_forbidden_solve_body
    ⟨"def solve(): import os", .ok [.functionDef "solve" [.importStmt ["os"]]]⟩
    [.functionDef "solve" [.importStmt ["os"]]] [] [] [] []
    (.importStmt ["os"]) .noSolve rfl rfl rfl rfl

/-! ## Totality of the step-proposal validator -/

/-- C4: `decisionRun` is total by construction (it returns a fully-populated
`DecisionOutput` — `step_index`, `description`, `type`, `code`, `conclusion`
and `plan_text` are non-optional fields — for every classified parse of
every raw oracle text, never an exception).  Moreover: a decoded object gets
the documented field defaults (index 0, "Missing from LLM response", NOP,
empty code/conclusion, placeholder plan text) for each missing field, a
decode failure yields the salvage record (CODE exactly when a code fragment
was salvaged, else NOP), and every unrecoverable-exception path — no fenced
JSON block, a non-object value, a non-object `next_step` — yields a
`HUMAN_IN_LOOP` proposal with reason `PLAN_FAILURE`. -/
theorem decision_run_total_with_defaults (p : LLMParse) (rawText : String) :
    (∀ fields, p = .decoded (.obj fields none) →
      ((fields.step_index = none → (decisionRun p rawText).step_index = 0) ∧
       (fields.description = none →
          (decisionRun p rawText).description = "Missing from LLM response") ∧
       (fields.type = none → (decisionRun p rawText).type = "NOP") ∧
       (fields.code = none → (decisionRun p rawText).code = "") ∧
       (fields.conclusion = none → (decisionRun p rawText).conclusion = "") ∧
       (fields.plan_text = none →
          (decisionRun p rawText).plan_text = ["Step 0: No valid plan returned by LLM."]))) ∧
    (∀ salvagedCode, p = .decodeFailure salvagedCode →
      ((decisionRun p rawText).type
          = (if salvagedCode.getD "" ≠ "" then "CODE" else "NOP") ∧
       (decisionRun p rawText).code = salvagedCode.getD "" ∧
       (decisionRun p rawText).description = "Recovered partial JSON from LLM.")) ∧
    ((p = .noJsonBlock ∨ (∃ msg, p = .decoded (.notAnObject msg)) ∨
        (∃ fields msg, p = .decoded (.obj fields (some (.notAnObject msg))))) →
      ((decisionRun p rawText).type = "HUMAN_IN_LOOP" ∧
       (decisionRun p rawText).human_in_loop_reason = some "PLAN_FAILURE")) := by
  refine ⟨?_, ?_, ?_⟩
  · intro fields hp
    subst hp
    simp only [decisionRun, applyDefaults]
    refine ⟨?_, ?_, ?_, ?_, ?_, ?_⟩ <;> (intro hnone; rw [hnone]; rfl)
  · intro salvagedCode hp
    subst hp
    by_cases hc : salvagedCode.getD "" = ""
    · simp [decisionRun, hc]
    · simp [decisionRun, hc]
  · intro hp
    rcases hp with h | ⟨msg, h⟩ | ⟨fields, msg, h⟩ <;> subst h <;>
      simp [decisionRun, planFailureOutput]

/-- C4 witness: the empty decoded object gets all defaults, and the
no-JSON-block failure becomes a `PLAN_FAILURE` `HUMAN_IN_LOOP` proposal. -/
theorem decision_run_total_with_defaults_checked :
    (decisionRun (.decoded (.obj {} none)) "").step_index = 0 ∧
    (decisionRun (.decoded (.obj {} none)) "").description = "Missing from LLM response" ∧
    (decisionRun (.decoded (.obj {} none)) "").type = "NOP" ∧
    (decisionRun (.decoded (.obj {} none)) "").plan_text
      = ["Step 0: No valid plan returned by LLM."] ∧
    (decisionRun .noJsonBlock "").type = "HUMAN_IN_LOOP" ∧
    (decisionRun .noJsonBlock "").human_in_loop_reason = some "PLAN_FAILURE" := by
  have h1 := decision_run_total_with_defaults (.decoded (.obj {} none)) ""
  have h2 := decision_run_total_with_defaults .noJsonBlock ""
  exact ⟨(h1.1 {} rfl).1 rfl, (h1.1 {} rfl).2.1 rfl, (h1.1 {} rfl).2.2.1 rfl,
    (h1.1 {} rfl).2.2.2.2.2 rfl, (h2.2.2 (Or.inl rfl)).1, (h2.2.2 (Or.inl rfl)).2⟩

/-! ## Orchestrator budgets -/

theorem setCurrentStep_total (s : Session) (st : Step) :
    (setCurrentStep s st).total_steps_executed = s.total_steps_executed := by
  unfold setCurrentStep
  cases s.plan_versions.getLast? <;> rfl

theorem appendStepToLastVersion_total (s : Session) (st : Step) :
    (appendStepToLastVersion s st).total_steps_executed = s.total_steps_executed := by
  unfold appendStepToLastVersion
  cases s.plan_versions.getLast? <;> rfl

theorem markComplete_total (s : Session) (a : Option String) :
    (markComplete s a).total_steps_executed = s.total_steps_executed := rfl

theorem addVersion_total (s : Session) (planText : List String) (first : Step) :
    (addVersion s planText first).total_steps_executed = s.total_steps_executed := rfl

theorem executeStep_total (O : Oracles) (st : LoopState) (step : Step) :
    (executeStep O st step).2.session.total_steps_executed
      = st.session.total_steps_executed := by
  unfold executeStep
  by_cases h1 : step.type = "CODE"
  · rw [if_pos h1]
    by_cases h2 : step.retries ≥ MAX_RETRIES
    · rw [if_pos h2]
      simp [setCurrentStep_total]
    · rw [if_neg h2]
      by_cases h3 : (O.executor st.execCalls).requires_human_intervention = true
      · rw [if_pos h3]
        simp [setCurrentStep_total]
      · rw [if_neg h3]
        simp [setCurrentStep_total]
  · rw [if_neg h1]
    by_cases h2 : step.type = "CONCLUDE"
    · rw [if_pos h2]
      simp [markComplete_total, setCurrentStep_total]
    · rw [if_neg h2]
      by_cases h3 : step.type = "NOP"
      · rw [if_pos h3]
        simp [setCurrentStep_total]
      · rw [if_neg h3]
        by_cases h4 : step.type = "HUMAN_IN_LOOP"
        · rw [if_pos h4]
          simp [setCurrentStep_total]
        · rw [if_neg h4]

theorem evaluateStep_total (O : Oracles) (st : LoopState) (step : Step) :
    (evaluateStep O st step).2.session.total_steps_executed
      = st.session.total_steps_executed := by
  unfold evaluateStep getNextStep
  unfold decideNextStep
  dsimp only
  split_ifs <;> rfl

theorem runLoop_total_le (O : Oracles) (fuel : Nat) (st : LoopState) (step : Step)
    (h : st.session.total_steps_executed ≤ MAX_STEPS) :
    (runLoop O fuel st step).session.total_steps_executed ≤ MAX_STEPS := by
  induction fuel generalizing st step with
  | zero => simpa [runLoop] using h
  | succ fuel ih =>
    rw [runLoop]
    by_cases hmax : st.session.total_steps_executed ≥ MAX_STEPS
    · rw [if_pos hmax]
      simpa [appendStepToLastVersion_total] using h
    · rw [if_neg hmax]
      have hexec := executeStep_total O st step
      rcases hex : executeStep O st step with ⟨sr?, st'⟩
      rw [hex] at hexec
      simp only at hexec
      cases sr? with
      | none =>
        simp only
        omega
      | some sr =>
        simp only
        by_cases hH : sr.type = "HUMAN_IN_LOOP"
        · rw [if_pos hH]
          omega
        · rw [if_neg hH]
          have hlt : st.session.total_steps_executed < MAX_STEPS := by omega
          have heval := evaluateStep_total O
            { st' with session := { st'.session with
                total_steps_executed := st'.session.total_steps_executed + 1 } } sr
          rcases hev : evaluateStep O
            { st' with session := { st'.session with
                total_steps_executed := st'.session.total_steps_executed + 1 } } sr
            with ⟨next?, st3⟩
          rw [hev] at heval
          simp only at heval
          cases next? with
          | none =>
            simp only
            omega
          | some next =>
            simp only
            exact ih st3 next (by omega)

theorem runAgent_total_le (O : Oracles) (q : String) :
    (runAgentState O q).session.total_steps_executed ≤ MAX_STEPS := by
  unfold runAgentState
  dsimp only
  split_ifs with h1 h2
  · simp [markComplete, MAX_STEPS]
  · simp [addVersion, MAX_STEPS]
  · exact runLoop_total_le O (MAX_STEPS + 1) _ _ (by simp [addVersion, MAX_STEPS])

theorem resumeLoop_total_le (O : Oracles) (fuel : Nat) (st : LoopState) (step : Step)
    (h : st.session.total_steps_executed ≤ MAX_STEPS + 3) :
    (resumeLoop O fuel st step).session.total_steps_executed ≤ MAX_STEPS + 3 := by
  induction fuel generalizing st step with
  | zero => simpa [resumeLoop] using h
  | succ fuel ih =>
    rw [resumeLoop]
    by_cases hmax : st.session.total_steps_executed ≥ MAX_STEPS + 3
    · rw [if_pos hmax]
      exact h
    · rw [if_neg hmax]
      have hexec := executeStep_total O st step
      rcases hex : executeStep O st step with ⟨sr?, st'⟩
      rw [hex] at hexec
      simp only at hexec
      cases sr? with
      | none =>
        simp only
        omega
      | some sr =>
        simp only
        by_cases hH : sr.type = "HUMAN_IN_LOOP"
        · rw [if_pos hH]
          omega
        · rw [if_neg hH]
          have heval := evaluateStep_total O
            { st' with session := { st'.session with
                total_steps_executed := st'.session.total_steps_executed + 1 } } sr
          rcases hev : evaluateStep O
            { st' with session := { st'.session with
                total_steps_executed := st'.session.total_steps_executed + 1 } } sr
            with ⟨next?, st3⟩
          rw [hev] at heval
          simp only at heval
          cases next? with
          | none =>
            simp only
            omega
          | some next =>
            simp only
            exact ih st3 next (by omega)

theorem resumeWithGuidance_total_le (O : Oracles) (st : LoopState)
    (h : st.session.total_steps_executed ≤ MAX_STEPS + 3) :
    (resumeWithGuidance O st).session.total_steps_executed ≤ MAX_STEPS + 3 := by
  unfold resumeWithGuidance
  dsimp only
  split_ifs
  · exact h
  · exact resumeLoop_total_le O (MAX_STEPS + 4) _ _ (by simpa [addVersion] using h)

/-- C3 counterexample: with collaborators that keep succeeding locally, a
session paused at the step budget and resumed with guidance reaches
`steps_executed = 6 > MAX_STEPS = 3` — `resume_with_guidance` runs against
`MAX_STEPS + 3` and, on reaching it, stops without synthesizing any
`HUMAN_IN_LOOP` step, so "steps_executed never exceeds MAX_STEPS" fails for
this session. -/
theorem steps_executed_exceeds_max_steps_after_resume :
    (resumeWithGuidance busyOracles (runAgentState busyOracles "q")).session.total_steps_executed
        = 6
      ∧ MAX_STEPS = 3 := by
  constructor <;> rfl

/-- C3 (amended): within `AgentLoop.run` the claim holds — `steps_executed`
never exceeds `MAX_STEPS`, and a loop iteration entered with
`steps_executed = MAX_STEPS` only appends the synthesized `HUMAN_IN_LOOP`
step with reason `MAX_STEPS_EXCEEDED` and stops.  `resume_with_guidance`,
however, runs against the larger bound `MAX_STEPS + 3`, which its loop also
never exceeds, and reaching that bound stops silently (the counterexample
shows the counter reaching `MAX_STEPS + 3`). -/
theorem max_steps_budget_semantics (O : Oracles) (q : String) (st : LoopState)
    (step : Step) (fuel : Nat)
    (hst : st.session.total_steps_executed ≤ MAX_STEPS + 3) :
    (runAgentState O q).session.total_steps_executed ≤ MAX_STEPS ∧
    (st.session.total_steps_executed = MAX_STEPS → 1 ≤ fuel →
      runLoop O fuel st step
          = { st with session := appendStepToLastVersion st.session (maxStepsHumanStep step) } ∧
        (maxStepsHumanStep step).type = "HUMAN_IN_LOOP" ∧
        (maxStepsHumanStep step).human_in_loop_reason = some "MAX_STEPS_EXCEEDED" ∧
        (maxStepsHumanStep step).status = "awaiting_human") ∧
    ((resumeWithGuidance O st).session.total_steps_executed ≤ MAX_STEPS + 3) := by
  refine ⟨runAgent_total_le O q, ?_, resumeWithGuidance_total_le O st hst⟩
  intro hmax hfuel
  cases fuel with
  | zero => omega
  | succ n =>
    rw [runLoop, if_pos (by omega)]
    exact ⟨rfl, rfl, rfl, rfl⟩

/-- C3 witness: the amended budget semantics at the concrete busy session:
a loop state sitting exactly at the budget gets the synthesized
`MAX_STEPS_EXCEEDED` step, the full run stays within `MAX_STEPS`, and the
resumed session stays within `MAX_STEPS + 3`. -/
theorem max_steps_budget_semantics_checked :
    (runAgentState busyOracles "q").session.total_steps_executed ≤ MAX_STEPS ∧
    (runLoop busyOracles 1 (runAgentState busyOracles "q")
          { index := 0, description := "d", type := "CODE" }
        = { runAgentState busyOracles "q" with
            session := appendStepToLastVersion (runAgentState busyOracles "q").session
              (maxStepsHumanStep { index := 0, description := "d", type := "CODE" }) } ∧
      (maxStepsHumanStep { index := 0, description := "d", type := "CODE" }).type
          = "HUMAN_IN_LOOP" ∧
      (maxStepsHumanStep { index := 0, description := "d", type := "CODE" }).human_in_loop_reason
          = some "MAX_STEPS_EXCEEDED" ∧
      (maxStepsHumanStep { index := 0, description := "d", type := "CODE" }).status
          = "awaiting_human") ∧
    ((resumeWithGuidance busyOracles (runAgentState busyOracles "q")).session.total_steps_executed
        ≤ MAX_STEPS + 3) := by
  have h := max_steps_budget_semantics busyOracles "q" (runAgentState busyOracles "q")
    { index := 0, description := "d", type := "CODE" } 1 (by decide)
  exact ⟨h.1, h.2.1 (by decide) (by decide), h.2.2⟩

/-- C2 counterexample: with an always-failing tool, the CODE step is
attempted exactly once (one executor call), its retry count reaches only 1,
and it is converted to `HUMAN_IN_LOOP` with reason `TOOL_FAILURE` — not
attempted `MAX_RETRIES = 3` times and not converted with reason
`MAX_RETRIES_EXCEEDED` as the claim requires of sessions with failing
tools. -/
theorem tool_failure_halts_after_single_attempt :
    (runAgentState failingToolOracles "q").execCalls = 1 ∧
    ((runAgentState failingToolOracles "q").session.plan_versions.map
        (fun v => v.steps.map Step.type)) = [["HUMAN_IN_LOOP"]] ∧
    ((runAgentState failingToolOracles "q").session.plan_versions.map
        (fun v => v.steps.map Step.human_in_loop_reason)) = [[some "TOOL_FAILURE"]] ∧
    ((runAgentState failingToolOracles "q").session.plan_versions.map
        (fun v => v.steps.map Step.retries)) = [[1]] ∧
    MAX_RETRIES = 3 := by
  refine ⟨rfl, rfl, rfl, rfl, rfl⟩

/-- C2 (amended): what `execute_step` actually does about retries.  A CODE
step entering with `retries ≥ MAX_RETRIES` is converted in place to
`HUMAN_IN_LOOP` with reason `MAX_RETRIES_EXCEEDED` without invoking the
tool; a CODE step whose tool invocation fails has its retry count
incremented once and is immediately converted to `HUMAN_IN_LOOP` with the
executor's reason (`TOOL_FAILURE` when none is given), after exactly one
executor call, and the loop then halts on that step — so a single step is
never attempted `MAX_RETRIES` times (the loop always hands a fresh step to
the next iteration, see the counterexample). -/
theorem code_step_retry_conversion_semantics (O : Oracles) (st : LoopState)
    (step : Step) (fuel : Nat) (hstep : step.type = "CODE") :
    (step.retries ≥ MAX_RETRIES →
      executeStep O st step
          = (some (maxRetriesHumanStep step),
             { st with session := setCurrentStep st.session (maxRetriesHumanStep step) }) ∧
        (maxRetriesHumanStep step).type = "HUMAN_IN_LOOP" ∧
        (maxRetriesHumanStep step).human_in_loop_reason = some "MAX_RETRIES_EXCEEDED" ∧
        (executeStep O st step).2.execCalls = st.execCalls) ∧
    (step.retries < MAX_RETRIES →
      (O.executor st.execCalls).requires_human_intervention = true →
      executeStep O st step
          = (some (toolFailureHumanStep step (O.executor st.execCalls)),
             { st with
                session := setCurrentStep st.session
                  (toolFailureHumanStep step (O.executor st.execCalls)),
                execCalls := st.execCalls + 1 }) ∧
        (toolFailureHumanStep step (O.executor st.execCalls)).retries = step.retries + 1 ∧
        (toolFailureHumanStep step (O.executor st.execCalls)).type = "HUMAN_IN_LOOP" ∧
        (toolFailureHumanStep step (O.executor st.execCalls)).human_in_loop_reason
            = some ((O.executor st.execCalls).human_in_loop_reason.getD "TOOL_FAILURE") ∧
        (st.session.total_steps_executed < MAX_STEPS → 1 ≤ fuel →
          runLoop O fuel st step = (executeStep O st step).2)) := by
  constructor
  · intro hretries
    have hexec : executeStep O st step
        = (some (maxRetriesHumanStep step),
           { st with session := setCurrentStep st.session (maxRetriesHumanStep step) }) := by
      unfold executeStep
      rw [if_pos hstep, if_pos hretries]
    exact ⟨hexec, rfl, rfl, by rw [hexec]⟩
  · intro hretries hfail
    have hexec : executeStep O st step
        = (some (toolFailureHumanStep step (O.executor st.execCalls)),
           { st with
              session := setCurrentStep st.session
                (toolFailureHumanStep step (O.executor st.execCalls)),
              execCalls := st.execCalls + 1 }) := by
      unfold executeStep
      rw [if_pos hstep, if_neg (by omega), if_pos hfail]
    refine ⟨hexec, rfl, rfl, rfl, ?_⟩
    intro hbudget hfuel
    cases fuel with
    | zero => omega
    | succ n =>
      rw [runLoop, if_neg (by omega), hexec]
      rfl

/-- C2 witness: the amended retry semantics at concrete inputs — a step
already at the retry limit is converted without a tool call, and a fresh
step whose tool fails is converted after one call, halting the loop. -/
theorem code_step_retry_conversion_semantics_checked :
    (executeStep failingToolOracles { session := { original_query := "q" } }
          { index := 0, description := "d", type := "CODE", retries := 3 }
        = (some (maxRetriesHumanStep
              { index := 0, description := "d", type := "CODE", retries := 3 }),
           { session := setCurrentStep
               ({ original_query := "q" } : Session)
               (maxRetriesHumanStep
                 { index := 0, description := "d", type := "CODE", retries := 3 }) }) ∧
      (maxRetriesHumanStep
          { index := 0, description := "d", type := "CODE", retries := 3 }).type
        = "HUMAN_IN_LOOP" ∧
      (maxRetriesHumanStep
          { index := 0, description := "d", type := "CODE", retries := 3 }).human_in_loop_reason
        = some "MAX_RETRIES_EXCEEDED" ∧
      (executeStep failingToolOracles { session := { original_query := "q" } }
          { index := 0, description := "d", type := "CODE", retries := 3 }).2.execCalls = 0) ∧
    ((toolFailureHumanStep { index := 0, description := "d", type := "CODE" }
          (failingToolOracles.executor 0)).retries = 1 ∧
      (toolFailureHumanStep { index := 0, description := "d", type := "CODE" }
          (failingToolOracles.executor 0)).human_in_loop_reason = some "TOOL_FAILURE" ∧
      runLoop failingToolOracles 1 { session := { original_query := "q" } }
          { index := 0, description := "d", type := "CODE" }
        = (executeStep failingToolOracles { session := { original_query := "q" } }
            { index := 0, description := "d", type := "CODE" }).2) := by
  have h := code_step_retry_conversion_semantics failingToolOracles
    { session := { original_query := "q" } }
    { index := 0, description := "d", type := "CODE", retries := 3 } 1 rfl
  have h2 := code_step_retry_conversion_semantics failingToolOracles
    { session := { original_query := "q" } }
    { index := 0, description := "d", type := "CODE" } 1 rfl
  have ha := h.1 (by decide)
  have hb := h2.2 (by decide) rfl
  exact ⟨⟨ha.1, ha.2.1, ha.2.2.1, ha.2.2.2⟩,
    ⟨hb.2.1, hb.2.2.2.1, hb.2.2.2.2 (by decide) (by decide)⟩⟩

/-! ## Bounds of the historical digest -/

theorem bulletLoop_length_le (mk : ℝ × HistItem → String) (maxChars : Nat)
    (items : List (ℝ × HistItem)) (total : Nat) :
    (bulletLoop mk maxChars items total).length ≤ items.length := by
  induction items generalizing total with
  | nil => simp [bulletLoop]
  | cons it rest ih =>
    rw [bulletLoop]
    split_ifs
    · simp
    · exact Nat.le_trans (Nat.succ_le_succ (ih _)) (by simp)

theorem bulletLoop_weight (mk : ℝ × HistItem → String) (maxChars : Nat)
    (items : List (ℝ × HistItem)) (total : Nat) :
    bulletLoop mk maxChars items total = [] ∨
      total + ((bulletLoop mk maxChars items total).map
        (fun b => b.length + 1)).sum ≤ maxChars := by
  induction items generalizing total with
  | nil => exact Or.inl rfl
  | cons it rest ih =>
    rw [bulletLoop]
    split_ifs with h
    · exact Or.inl rfl
    · right
      rcases ih (total + (mk it).length + 1) with hnil | hle
      · rw [hnil]
        simp
        omega
      · simp only [List.map_cons, List.sum_cons]
        omega

theorem joinNL_length (bs : List String) (h : bs ≠ []) :
    (joinNL bs).length + 1 = (bs.map (fun b => b.length + 1)).sum := by
  induction bs with
  | nil => exact absurd rfl h
  | cons b rest ih =>
    cases rest with
    | nil => simp [joinNL]
    | cons c t =>
      rw [joinNL]
      have hih := ih (List.cons_ne_nil c t)
      have hnl : ("\n" : String).length = 1 := rfl
      simp only [List.map_cons, List.sum_cons] at hih ⊢
      simp only [String.length_append, hnl]
      omega
      simp

theorem ne_nil_of_isEmpty_false {α : Type} {l : List α} (h : l.isEmpty = false) :
    l ≠ [] := by
  cases l with
  | nil => simp [List.isEmpty] at h
  | cons a t => simp

theorem compressToBullets_length_le (mk : ℝ × HistItem → String)
    (items : List (ℝ × HistItem)) (maxBullets maxChars : Nat) :
    (compressToBullets mk items maxBullets maxChars).length ≤ maxChars := by
  unfold compressToBullets compressToBulletsList
  dsimp only
  split_ifs with h
  · simp
  · rw [Bool.not_eq_true] at h
    have hne := ne_nil_of_isEmpty_false h
    have hw := bulletLoop_weight mk maxChars (items.take maxBullets) 0
    rcases hw with hnil | hle
    · exact absurd hnil hne
    · have hj := joinNL_length (bulletLoop mk maxChars (items.take maxBullets) 0) hne
      omega

theorem compressToBulletsList_count_le (mk : ℝ × HistItem → String)
    (items : List (ℝ × HistItem)) (maxBullets maxChars : Nat) :
    (compressToBulletsList mk items maxBullets maxChars).length ≤ maxBullets := by
  unfold compressToBulletsList
  calc (bulletLoop mk maxChars (items.take maxBullets) 0).length
      ≤ (items.take maxBullets).length := bulletLoop_length_le _ _ _ _
    _ ≤ maxBullets := List.length_take_le maxBullets items

theorem compressToBullets_shape (mk : ℝ × HistItem → String)
    (items : List (ℝ × HistItem)) :
    compressToBullets mk items 10 1500 = "" ∨
      ∃ bs : List String, bs.length ≤ 10 ∧
        compressToBullets mk items 10 1500 = joinNL bs := by
  unfold compressToBullets
  dsimp only
  cases hb : (compressToBulletsList mk items 10 1500).isEmpty with
  | true =>
    left
    rw [if_pos rfl]
  | false =>
    right
    refine ⟨compressToBulletsList mk items 10 1500,
      compressToBulletsList_count_le mk items 10 1500, ?_⟩
    rw [if_neg Bool.false_ne_true]

/-- C7: for every historical store (missing, unreadable, empty, or any list
of records) and every query, the digest of the memory scorer is at most
1,500 characters long and is either the fixed sentinel or the join of at
most 10 bullets; the compression layer obeys the same bounds for every
bullet-rendering function and every scored list. -/
theorem historical_digest_bounds (store : StoreLoad) (userInput : String)
    (currentTime : ℝ) (renderDate : TsVal → String) (renderScore : ℝ → String) :
    (∀ (mk : ℝ × HistItem → String) (items : List (ℝ × HistItem)),
      (compressToBulletsList mk items 10 1500).length ≤ 10 ∧
      (compressToBullets mk items 10 1500).length ≤ 1500) ∧
    (getHistoricalContext store userInput currentTime renderDate renderScore).length ≤ 1500 ∧
    ((getHistoricalContext store userInput currentTime renderDate renderScore)
        = noContextSentinel ∨
      ∃ bs : List String, bs.length ≤ 10 ∧
        getHistoricalContext store userInput currentTime renderDate renderScore
          = joinNL bs) := by
  have hsent : noContextSentinel.length ≤ 1500 := by decide
  refine ⟨fun mk items => ⟨compressToBulletsList_count_le mk items 10 1500,
    compressToBullets_length_le mk items 10 1500⟩, ?_, ?_⟩
  · unfold getHistoricalContext
    cases store with
    | missing => exact hsent
    | loadFailure => exact hsent
    | items records =>
      dsimp only
      split_ifs
      · exact hsent
      · exact hsent
      · exact hsent
      · exact compressToBullets_length_le _ _ 10 1500
  · unfold getHistoricalContext
    cases store with
    | missing => exact Or.inl rfl
    | loadFailure => exact Or.inl rfl
    | items records =>
      dsimp only
      split_ifs with h1 h2 h3
      · exact Or.inl rfl
      · exact Or.inl rfl
      · exact Or.inl rfl
      · rcases compressToBullets_shape
            (fun si => bulletFor renderDate renderScore si.1 si.2)
            ((scoreRecords (extractQueryTerms userInput) currentTime records []).mergeSort
              (fun x y => decide (y.1 ≤ x.1))) with hempty | hshape
        · exact absurd (Or.inl hempty) h3
        · exact Or.inr hshape

/-! ## Bounds and monotonicity of the relevance score -/

theorem simpleCosineSimilarity_nonneg (a b : String) :
    0 ≤ simpleCosineSimilarity a b := by
  unfold simpleCosineSimilarity
  dsimp only
  split_ifs
  · norm_num
  · positivity
  · norm_num

theorem simpleCosineSimilarity_le_one (a b : String) :
    simpleCosineSimilarity a b ≤ 1 := by
  unfold simpleCosineSimilarity
  dsimp only
  split_ifs with h1 h2
  · norm_num
  · rw [div_le_one]
    · exact_mod_cast Finset.card_le_card Finset.inter_subset_union
    · have hpos : 0 < ((extractQueryTerms a).toFinset ∪ (extractQueryTerms b).toFinset).card :=
        Finset.card_pos.mpr (Finset.nonempty_iff_ne_empty.mpr h2)
      exact_mod_cast hpos
  · norm_num

theorem recencyScore_nonneg (ts : TsVal) (currentTime : ℝ) :
    0 ≤ recencyScore ts currentTime := by
  unfold recencyScore
  cases tsParsedTime ts with
  | none => norm_num
  | some t => positivity

theorem recencyScore_le_max (ts : TsVal) (currentTime : ℝ)
    (h : ∀ t, tsParsedTime ts = some t → t ≤ currentTime) :
    recencyScore ts currentTime ≤ 0.30 := by
  unfold recencyScore
  cases hp : tsParsedTime ts with
  | none => norm_num
  | some t =>
    have ht := h t hp
    have hexp : Real.exp (-((currentTime - t) / 3600) / 168) ≤ 1 := by
      rw [Real.exp_le_one_iff]
      have hnn : 0 ≤ currentTime - t := by linarith
      have h3600 : 0 ≤ (currentTime - t) / 3600 := by positivity
      linarith
    nlinarith [hexp]

/-- C10: for every historical record whose parsed timestamp is not in the
future, every query-term list, current time, and seen-text set,
`calculate_historical_score` stays within `[0, 1]`: the six weighted
components are each non-negative and sum to at most
`0.30 + 0.30 + 0.15 + 0.10 + 0.10 + 0.05 = 1.00`. -/
theorem historical_score_in_unit_interval (item : HistItem)
    (queryTerms : List String) (currentTime : ℝ) (seenTexts : List String)
    (h : ∀ t, tsParsedTime item.timestamp = some t → t ≤ currentTime) :
    0 ≤ calculateHistoricalScore item queryTerms currentTime seenTexts ∧
    calculateHistoricalScore item queryTerms currentTime seenTexts ≤ 1 := by
  have hr0 := recencyScore_nonneg item.timestamp currentTime
  have hr1 := recencyScore_le_max item.timestamp currentTime h
  have hs0 := simpleCosineSimilarity_nonneg (String.intercalate " " queryTerms) (itemText item)
  have hs1 := simpleCosineSimilarity_le_one (String.intercalate " " queryTerms) (itemText item)
  have hs0R : (0 : ℝ) ≤
      ((simpleCosineSimilarity (String.intercalate " " queryTerms) (itemText item) : ℚ) : ℝ) := by
    exact_mod_cast hs0
  have hs1R :
      ((simpleCosineSimilarity (String.intercalate " " queryTerms) (itemText item) : ℚ) : ℝ) ≤ 1 := by
    exact_mod_cast hs1
  have hrel0 : (0 : ℝ) ≤
      ((simpleCosineSimilarity (String.intercalate " " queryTerms) (itemText item) : ℚ) : ℝ)
        * 0.30 := by nlinarith
  have hrel1 :
      ((simpleCosineSimilarity (String.intercalate " " queryTerms) (itemText item) : ℚ) : ℝ)
        * 0.30 ≤ 0.30 := by nlinarith
  have htool : (0 : ℝ) ≤
      (if item.success ∧ optTruthy item.tool then (0.15 : ℝ)
       else if optTruthy item.tool then 0.05 else 0) ∧
      (if item.success ∧ optTruthy item.tool then (0.15 : ℝ)
       else if optTruthy item.tool then 0.05 else 0) ≤ 0.15 := by
    constructor <;> split_ifs <;> norm_num
  have hprov : (0 : ℝ) ≤
      ((if tsTruthy item.timestamp then (0.03 : ℝ) else 0)
        + (if optTruthy item.tool then (0.04 : ℝ) else 0)
        + (if optTruthy item.result then (0.03 : ℝ) else 0)) ∧
      ((if tsTruthy item.timestamp then (0.03 : ℝ) else 0)
        + (if optTruthy item.tool then (0.04 : ℝ) else 0)
        + (if optTruthy item.result then (0.03 : ℝ) else 0)) ≤ 0.10 := by
    constructor <;> split_ifs <;> norm_num
  have hlen : (0 : ℝ) ≤
      (if (itemText item).length < 200 then (0.10 : ℝ)
       else if (itemText item).length < 500 then 0.07
       else if (itemText item).length < 1000 then 0.04 else 0.01) ∧
      (if (itemText item).length < 200 then (0.10 : ℝ)
       else if (itemText item).length < 500 then 0.07
       else if (itemText item).length < 1000 then 0.04 else 0.01) ≤ 0.10 := by
    constructor <;> split_ifs <;> norm_num
  have hdiv : (0 : ℝ) ≤
      (if seenTexts.any (fun seen =>
          decide ((0.8 : ℚ) < simpleCosineSimilarity (itemText item) seen)) then (0 : ℝ)
       else 0.05) ∧
      (if seenTexts.any (fun seen =>
          decide ((0.8 : ℚ) < simpleCosineSimilarity (itemText item) seen)) then (0 : ℝ)
       else 0.05) ≤ 0.05 := by
    constructor <;> split_ifs <;> norm_num
  unfold calculateHistoricalScore
  dsimp only
  constructor
  · linarith [htool.1, hprov.1, hlen.1, hdiv.1]
  · linarith [htool.2, hprov.2, hlen.2, hdiv.2]

/-- C10 witness: the bound at a concrete record with no parseable
timestamp. -/
theorem historical_score_in_unit_interval_checked :
    0 ≤ calculateHistoricalScore {} [] 0 [] ∧ calculateHistoricalScore {} [] 0 [] ≤ 1 :=
  historical_score_in_unit_interval {} [] 0 []
    (fun t ht => by simp [tsParsedTime] at ht)

/-- C9: for two records identical in every field but the timestamp, both
with parsed timestamps not in the future and equal field truthiness, the
older record scores no higher: the recency component is
`exp(-age_hours / 168) * 0.30` and is non-increasing in `age_hours` while
everything else is held fixed. -/
theorem historical_score_monotone_in_age (base : HistItem) (ts1 ts2 : TsVal)
    (t1 t2 : ℝ) (queryTerms : List String) (currentTime : ℝ)
    (seenTexts : List String)
    (hp1 : tsParsedTime ts1 = some t1) (hp2 : tsParsedTime ts2 = some t2)
    (htruthy : tsTruthy ts1 = tsTruthy ts2)
    (_hfresh : t1 ≤ currentTime) (_hfresh2 : t2 ≤ currentTime) (holder : t2 ≤ t1) :
    (∀ ts t, tsParsedTime ts = some t →
      recencyScore ts currentTime
        = Real.exp (-((currentTime - t) / 3600) / 168) * 0.30) ∧
    calculateHistoricalScore { base with timestamp := ts2 } queryTerms currentTime seenTexts
      ≤ calculateHistoricalScore { base with timestamp := ts1 } queryTerms currentTime
          seenTexts := by
  constructor
  · intro ts t hp
    unfold recencyScore
    rw [hp]
  · have hrec : recencyScore ts2 currentTime ≤ recencyScore ts1 currentTime := by
      unfold recencyScore
      rw [hp1, hp2]
      refine mul_le_mul_of_nonneg_right (Real.exp_le_exp.mpr ?_) (by norm_num)
      linarith
    have hIT : ∀ ts : TsVal, itemText { base with timestamp := ts } = itemText base :=
      fun _ => rfl
    unfold calculateHistoricalScore
    dsimp only
    simp only [hIT]
    rw [htruthy]
    linarith [hrec]

/-- C9 witness: the monotonicity at two concrete timestamped records one
hour apart. -/
theorem historical_score_monotone_in_age_checked :
    (∀ ts t, tsParsedTime ts = some t →
      recencyScore ts 2
        = Real.exp (-((2 - t) / 3600) / 168) * 0.30) ∧
    calculateHistoricalScore { timestamp := TsVal.str "2024-01-01T00:00:00" (some 0) } [] 2 []
      ≤ calculateHistoricalScore { timestamp := TsVal.str "2024-01-01T01:00:00" (some 1) } [] 2 [] :=
  historical_score_monotone_in_age {} (TsVal.str "2024-01-01T01:00:00" (some 1))
    (TsVal.str "2024-01-01T00:00:00" (some 0)) 1 0 [] 2 [] rfl rfl rfl
    (by norm_num) (by norm_num) (by norm_num)

end EAG
